import Mathlib

/-!
Verification development for the OpenClaw gateway protocol client and chat
session state machine (`src/lib/openclawGateway.ts` and the `useOpenClawChat`
hook).  JavaScript values arriving over the wire are modelled by the `Json`
inductive; machine time is modelled as integer milliseconds; the asynchronous
outcome of an awaited gateway request is passed to the modelled operation as an
explicit parameter.
-/

namespace OpenClaw

/-- JSON values as produced by `JSON.parse`.  Objects keep their field list in
insertion order; duplicate keys are resolved last-wins by `jLookup` below. -/
inductive Json where
  | null
  | bool (b : Bool)
  | num (n : Int)
  | str (s : String)
  | arr (elems : List Json)
  | obj (fields : List (String × Json))

/-- JavaScript property read on a parsed JSON object: duplicate keys resolve to
the last occurrence, missing keys give `none` (i.e. `undefined`). -/
def jLookup : List (String × Json) → String → Option Json
  | [], _ => none
  | (k, v) :: rest, key =>
    match jLookup rest key with
    | some r => some r
    | none => if k = key then some v else none

/-- JavaScript property access `v.key`: throws (`.error`) on `null`, yields
`undefined` (`none`) on primitives and arrays, looks the field up on objects. -/
def jsGet : Json → String → Except Unit (Option Json)
  | .null, _ => .error ()
  | .obj fields, key => .ok (jLookup fields key)
  | _, _ => .ok none

/-- `isRecord` from the source: `typeof value === "object" && value !== null`.
Arrays also satisfy this test in JavaScript. -/
def isRecordJ : Json → Bool
  | .obj _ => true
  | .arr _ => true
  | _ => false

/-- JavaScript truthiness of a possibly-undefined value. -/
def jsTruthy : Option Json → Bool
  | none => false
  | some .null => false
  | some (.bool b) => b
  | some (.num n) => n ≠ 0
  | some (.str s) => s ≠ ""
  | some (.arr _) => true
  | some (.obj _) => true

/-- Reads a field that must be a string, as in `typeof x.k === "string"`. -/
def jStrField (fields : List (String × Json)) (key : String) : Option String :=
  match jLookup fields key with
  | some (.str s) => some s
  | _ => none

theorem jLookup_sizeOf {fields : List (String × Json)} {key : String} {v : Json}
    (h : jLookup fields key = some v) : sizeOf v < sizeOf fields := by
  induction fields with
  | nil => simp [jLookup] at h
  | cons hd tl ih =>
    obtain ⟨k, w⟩ := hd
    simp only [jLookup] at h
    cases hhd : jLookup tl key with
    | some r =>
      rw [hhd] at h
      cases h
      have := ih hhd
      simp only [List.cons.sizeOf_spec, Prod.mk.sizeOf_spec]
      omega
    | none =>
      rw [hhd] at h
      by_cases hk : k = key
      · rw [if_pos hk] at h
        injection h with h
        subst h
        simp only [List.cons.sizeOf_spec, Prod.mk.sizeOf_spec]
        omega
      · simp [hk] at h

theorem jStrField_arr_sizeOf {fields : List (String × Json)} {key : String}
    {xs : List Json} (h : jLookup fields key = some (.arr xs)) :
    sizeOf (Json.arr xs) < 1 + sizeOf fields := by
  have := jLookup_sizeOf h
  omega

/-- `Array.prototype.join("\n")`. -/
def joinLines : List String → String
  | [] => ""
  | [x] => x
  | x :: y :: rest => x ++ "\n" ++ joinLines (y :: rest)

/-- `extractText` from the source: pulls display text out of an arbitrary chat
payload value (string / array of parts / object with `text`, `message`,
`content`, `parts` or `blocks`). -/
def extractText : Json → String
  | .str s => s
  | .arr xs =>
    joinLines
      (((xs.attach.map fun x => extractText x.1).filter fun t => t ≠ ""))
  | .obj fields =>
    match jStrField fields "text" with
    | some t => t
    | none =>
      match jStrField fields "message" with
      | some t => t
      | none =>
        match jStrField fields "content" with
        | some t => t
        | none =>
          match hc : jLookup fields "content" with
          | some (.arr cs) => extractText (.arr cs)
          | _ =>
            match hp : jLookup fields "parts" with
            | some (.arr ps) => extractText (.arr ps)
            | _ =>
              match hb : jLookup fields "blocks" with
              | some (.arr bs) => extractText (.arr bs)
              | _ => ""
  | _ => ""
termination_by v => sizeOf v
decreasing_by
  · have := x.2
    have := List.sizeOf_lt_of_mem this
    simp
    omega
  · have h1 := jLookup_sizeOf hc
    have h2 : sizeOf (Json.arr cs) = 1 + sizeOf cs := by simp
    simp
    omega
  · have h1 := jLookup_sizeOf hp
    have h2 : sizeOf (Json.arr ps) = 1 + sizeOf ps := by simp
    simp
    omega
  · have h1 := jLookup_sizeOf hb
    have h2 : sizeOf (Json.arr bs) = 1 + sizeOf bs := by simp
    simp
    omega

/-- `extractText` applied to a possibly-absent (`undefined`) payload field. -/
def extractTextOpt : Option Json → String
  | none => ""
  | some v => extractText v

/-- JavaScript whitespace (`\s` and `String.prototype.trim`): the code points
relevant to this code base. -/
def isJsWhitespace (c : Char) : Bool :=
  c = ' ' ∨ c = '\t' ∨ c = '\n' ∨ c = '\r' ∨ c = '\u000b' ∨ c = '\u000c' ∨
  c = '\u00a0' ∨ c = '\u2028' ∨ c = '\u2029' ∨ c = '\u3000' ∨ c = '\ufeff'

def jsTrimList (l : List Char) : List Char :=
  ((l.dropWhile isJsWhitespace).reverse.dropWhile isJsWhitespace).reverse

/-- `String.prototype.trim`. -/
def jsTrim (s : String) : String := String.mk (jsTrimList s.data)

/-- `String.prototype.toLowerCase` (ASCII range; the inputs it is applied to
are mime types and error phrases). -/
def jsToLower (s : String) : String := String.mk (s.data.map Char.toLower)

/-- `String.prototype.startsWith`. -/
def jsStartsWith (s pre : String) : Bool :=
  s.data.take pre.data.length = pre.data

/-- `String.prototype.endsWith`. -/
def jsEndsWith (s suf : String) : Bool :=
  s.data.reverse.take suf.data.length = suf.data.reverse

/-- `String.prototype.slice(0, n)`. -/
def jsSlice (s : String) (n : Nat) : String := String.mk (s.data.take n)

/-- Matches the pattern characters `pat` at index `i` of `s`. -/
def listMatchesAt (pat s : List Char) (i : Nat) : Bool :=
  (s.drop i).take pat.length = pat

/-- JavaScript regex line terminators, which `.` does not match. -/
def isJsLineTerminator (c : Char) : Bool :=
  c = '\n' ∨ c = '\r' ∨ c = '\u2028' ∨ c = '\u2029'

/-- `INVALID_IMAGE_DATA_RE.test`: the case-insensitive pattern
`image data .* valid image` matches somewhere in the string. -/
def invalidImageDataTest (s : String) : Bool :=
  let cs := s.toList.map Char.toLower
  let p1 := "image data ".toList
  let p2 := " valid image".toList
  (List.range (cs.length + 1)).any fun i =>
    listMatchesAt p1 cs i &&
    ((List.range (cs.length + 1)).any fun j =>
      decide (i + p1.length ≤ j) && listMatchesAt p2 cs j &&
      (((cs.drop (i + p1.length)).take (j - (i + p1.length))).all fun c =>
        !isJsLineTerminator c))

/-- `parseDataUrlToBase64`: applies `/^data:([^;]+);base64,(.+)$/i` to the
trimmed data URL and returns `(mimeType, content)` with the mime type trimmed
and lower-cased and the content trimmed. -/
def parseDataUrlToBase64 (dataUrl : String) : Option (String × String) :=
  let cs := jsTrimList dataUrl.data
  if (cs.take 5).map Char.toLower = "data:".toList then
    let rest := cs.drop 5
    let mime := rest.takeWhile fun c => c ≠ ';'
    let after := rest.drop mime.length
    if mime.length > 0 ∧ (after.take 8).map Char.toLower = ";base64,".toList then
      let content := after.drop 8
      if content.length > 0 ∧ content.all fun c => !isJsLineTerminator c then
        some (jsToLower (String.mk (jsTrimList mime)), String.mk (jsTrimList content))
      else none
    else none
  else none

/-- `toImageDataUrl`. -/
def toImageDataUrl (mimeType content : String) : String :=
  "data:" ++ mimeType ++ ";base64," ++ content

/-- `toFileUrl`. -/
def toFileUrl (path : String) : String :=
  let normalized := String.mk (path.data.map fun c => if c = '\\' then '/' else c)
  if jsStartsWith normalized "/" then "file://" ++ normalized
  else "file:///" ++ normalized

/-- `estimateBase64ByteLength`: `Math.max(0, floor(len*3/4) - padding)`
(natural-number subtraction already truncates at zero). -/
def estimateBase64ByteLength (base64 : String) : Nat :=
  let cleaned := jsTrim base64
  if cleaned = "" then 0
  else
    let padding : Nat :=
      if jsEndsWith cleaned "==" then 2 else if jsEndsWith cleaned "=" then 1 else 0
    cleaned.length * 3 / 4 - padding

/-- `trimScreenText` (the default screen message is the empty string). -/
def trimScreenText (input : String) : String :=
  let text := jsTrim input
  if text = "" then ""
  else if text.length > 1200 then jsSlice text 1197 ++ "..."
  else text

/-- `parseSessionAgentId`: applies `/^agent:([^:]+):/` to the trimmed key. -/
def parseSessionAgentId (sessionKey : String) : Option String :=
  let cs := jsTrimList sessionKey.data
  if cs.take 6 = "agent:".toList then
    let rest := cs.drop 6
    let ident := rest.takeWhile fun c => c ≠ ':'
    let after := rest.drop ident.length
    if ident.length > 0 ∧ after.take 1 = [':'] then some (String.mk ident)
    else none
  else none

/-- `normalizeGatewayErrorMessage`. -/
def normalizeGatewayErrorMessage (message : String) : String :=
  let normalized := jsTrim message
  if normalized = "" then "模型返回错误，请稍后重试。"
  else if invalidImageDataTest normalized then
    "图片内容解析失败，请重试：优先使用截图/PNG/JPEG，或换一张图后再发。"
  else normalized

/-- `latestAssistant.text.replace(/^错误:\s*/, "")` from the poll adoption
path: drops one leading error label and the whitespace following it. -/
def dropErrorLabel (text : String) : String :=
  let cs := text.toList
  if cs.take 3 = "错误:".toList then
    String.mk ((cs.drop 3).dropWhile isJsWhitespace)
  else text

/-- `Array.from(new Set(xs))`: deduplication keeping first occurrences. -/
def jsSetDedupGo (seen : List String) : List String → List String
  | [] => []
  | x :: xs =>
    if x ∈ seen then jsSetDedupGo seen xs
    else x :: jsSetDedupGo (seen ++ [x]) xs

def jsSetDedup (l : List String) : List String := jsSetDedupGo [] l

/-! ## Transport client (`OpenClawGatewayClient`)

The client owns one socket at a time.  Its observable behaviour is modelled as
a step function over `GWState` that consumes transport inputs (socket events,
inbound messages, API calls, the handshake timer) and produces effects
(settling a pending request's promise, emitting an event frame to subscribers,
dispatching the `connect` request).  Each pending request's resolve/reject
continuation pair is identified by the token counter value at its creation.
The asynchronous tail of `sendConnect` after its synchronous guard (device
signing and the eventual `request("connect", …)` call) is represented by the
`connectSend` effect; that later request itself is just another `reqCall`. -/

/-- Socket phase: `ws === null`, or a socket that has not yet fired `open`
(readyState CONNECTING), or an open socket. -/
inductive WsPhase where
  | noSocket
  | connecting
  | openSock
  deriving DecidableEq

structure GWState where
  pending : List (String × Nat)
  nextK : Nat
  ws : WsPhase
  connectTimerArmed : Bool
  connectNonce : Option String
  connectSent : Bool
  disposed : Bool
  deriving DecidableEq

inductive SettleKind where
  | resolved (payload : Option Json)
  | rejected (message : String)

inductive GWEffect where
  | sendFrame (id : String)
  | settle (k : Nat) (kind : SettleKind)
  | emit (frame : Json)
  | connectSend (nonce : Option String)
  | onCloseCb (code : Nat) (reason : String)
  | wsClose (code : Nat) (reason : String)

/-- `Map.get` on the pending map. -/
def pendingGet : List (String × Nat) → String → Option Nat
  | [], _ => none
  | (k, v) :: rest, key => if k = key then some v else pendingGet rest key

/-- `Map.delete` on the pending map. -/
def pendingErase (m : List (String × Nat)) (key : String) : List (String × Nat) :=
  m.filter fun e => e.1 ≠ key

/-- `Map.set`: overwrites in place if the key exists, else appends. -/
def pendingSet (m : List (String × Nat)) (key : String) (v : Nat) :
    List (String × Nat) :=
  if (pendingGet m key).isSome then
    m.map fun e => if e.1 = key then (key, v) else e
  else m ++ [(key, v)]

/-- `sendConnect` up to its synchronous guard: a second call on the same
socket, or a call without an open socket, is a no-op; otherwise the
`connectSent` flag is set, the handshake timer cleared, and the `connect`
request (signed with the stored challenge nonce, if any) is dispatched. -/
def sendConnect (st : GWState) : GWState × List GWEffect :=
  if st.connectSent ∨ st.ws ≠ .openSock then (st, [])
  else ({ st with connectSent := true, connectTimerArmed := false },
        [.connectSend st.connectNonce])

/-- `flushPending`: rejects every pending continuation and clears the map. -/
def flushPending (st : GWState) (msg : String) : GWState × List GWEffect :=
  ({ st with pending := [] },
   st.pending.map fun e => .settle e.2 (.rejected msg))

/-- The nonce accepted from a `connect.challenge` event frame: the `payload`
must be a record whose `nonce` is a non-empty string. -/
def challengeNonceOf (fields : List (String × Json)) : Option String :=
  if jStrField fields "event" = some "connect.challenge" then
    match jLookup fields "payload" with
    | some (.obj pf) =>
      match jLookup pf "nonce" with
      | some (.str n) => if n.length > 0 then some n else none
      | _ => none
    | _ => none
  else none

/-- The rejection message taken from a failed response frame
(`frame.error.message` when it is a string, else `"request failed"`). -/
def resErrorMessage (fields : List (String × Json)) : String :=
  match jLookup fields "error" with
  | some (.obj ef) =>
    match jLookup ef "message" with
    | some (.str m) => m
    | _ => "request failed"
  | _ => "request failed"

/-- `handleMessage`.  `data = none` models input that `JSON.parse` rejects
(the exception is caught and the frame dropped).  A parsed `null` makes the
`frame.type` property access throw (`.error`); any other non-object yields
`undefined` for both `frame.type` and `frame.id` and is dropped. -/
def handleMessage (st : GWState) (data : Option Json) :
    Except Unit (GWState × List GWEffect) :=
  match data with
  | none => .ok (st, [])
  | some .null => .error ()
  | some (.obj fields) =>
    if jStrField fields "type" = some "event" then
      let frame := Json.obj fields
      match challengeNonceOf fields with
      | some n =>
        let r := sendConnect { st with connectNonce := some n }
        .ok (r.1, r.2 ++ [.emit frame])
      | none => .ok (st, [.emit frame])
    else
      match jLookup fields "id" with
      | some (.str id) =>
        match pendingGet st.pending id with
        | none => .ok (st, [])
        | some k =>
          let st1 := { st with pending := pendingErase st.pending id }
          if jsTruthy (jLookup fields "ok") then
            .ok (st1, [.settle k (.resolved (jLookup fields "payload"))])
          else
            .ok (st1, [.settle k (.rejected (resErrorMessage fields))])
      | _ => .ok (st, [])
  | some _ => .ok (st, [])

/-- `handleOpen` (plus the transport fact that the socket is now open):
resets the handshake flags and arms the 700ms connect timer. -/
def handleOpen (st : GWState) : GWState :=
  { st with ws := .openSock, connectNonce := none, connectSent := false,
            connectTimerArmed := true }

/-- `handleClose`: clears the timer and handshake flags, bulk-rejects all
pending requests, drops the socket, and invokes `onClose` unless the client
itself initiated the teardown. -/
def handleClose (st : GWState) (code : Nat) (reason : String) :
    GWState × List GWEffect :=
  let msg := "gateway closed (" ++ toString code ++ "): " ++
    (if reason = "" then "no reason" else reason)
  let (st1, effs) := flushPending
    { st with connectTimerArmed := false, connectSent := false,
              connectNonce := none } msg
  ({ st1 with ws := .noSocket },
   effs ++ (if st.disposed then [] else [.onCloseCb code reason]))

/-- `stop()`: marks the client disposed, clears handshake state, closes the
socket with the normal-closure code, and bulk-rejects all pending requests. -/
def stopClient (st : GWState) : GWState × List GWEffect :=
  let st1 := { st with disposed := true, connectTimerArmed := false,
                       connectSent := false, connectNonce := none }
  let (st2, closeEffs) :=
    match st1.ws with
    | .noSocket => (st1, ([] : List GWEffect))
    | _ => ({ st1 with ws := .noSocket }, [.wsClose 1000 "client stop"])
  let (st3, effs) := flushPending st2 "gateway client stopped"
  (st3, closeEffs ++ effs)

/-- `start()`: tears down any previous socket, then opens a fresh one. -/
def startClient (st : GWState) : GWState × List GWEffect :=
  let (st1, effs) := stopClient st
  ({ st1 with disposed := false, ws := .connecting }, effs)

/-- `request(method, params)` with the freshly generated id `id`: rejects the
returned promise immediately if the socket is not open, otherwise registers a
pending entry and writes the frame. -/
def requestCall (st : GWState) (id : String) : GWState × List GWEffect :=
  if st.ws ≠ .openSock then
    ({ st with nextK := st.nextK + 1 },
     [.settle st.nextK (.rejected "gateway not connected")])
  else
    ({ st with pending := pendingSet st.pending id st.nextK,
               nextK := st.nextK + 1 },
     [.sendFrame id])

/-- The 700ms handshake timer firing (possible only while armed). -/
def connectTimerFire (st : GWState) : GWState × List GWEffect :=
  if st.connectTimerArmed then sendConnect { st with connectTimerArmed := false }
  else (st, [])

inductive GWInput where
  | openEvt
  | recv (data : Option Json)
  | closeEvt (code : Nat) (reason : String)
  | stopCall
  | startCall
  | reqCall (id : String)
  | timerFire

def stepGW (st : GWState) (i : GWInput) : GWState × List GWEffect :=
  match i with
  | .openEvt => (handleOpen st, [])
  | .recv d =>
    match handleMessage st d with
    | .ok r => r
    | .error _ => (st, [])
  | .closeEvt c r => handleClose st c r
  | .stopCall => stopClient st
  | .startCall => startClient st
  | .reqCall id => requestCall st id
  | .timerFire => connectTimerFire st

def runGW (st : GWState) : List GWInput → GWState × List GWEffect
  | [] => (st, [])
  | i :: rest =>
    let r1 := stepGW st i
    let r2 := runGW r1.1 rest
    (r2.1, r1.2 ++ r2.2)

/-- The client state for a freshly started socket right after its `open`
event (one socket lifetime starts here). -/
def freshOpenGW : GWState :=
  { pending := [], nextK := 0, ws := .openSock, connectTimerArmed := true,
    connectNonce := none, connectSent := false, disposed := false }

/-- Continuation tokens settled (resolved or rejected) by a list of effects. -/
def settledKs (effs : List GWEffect) : List Nat :=
  effs.filterMap fun e => match e with | .settle k _ => some k | _ => none

/-- Tokens of the currently pending entries. -/
def pendingKs (st : GWState) : List Nat := st.pending.map Prod.snd

/-- Number of `connect` dispatches in a list of effects. -/
def connectSendCount (effs : List GWEffect) : Nat :=
  effs.countP fun e => match e with | .connectSend _ => true | _ => false

/-- Nonces carried by the `connect` dispatches in a list of effects. -/
def connectSendNonces (effs : List GWEffect) : List (Option String) :=
  effs.filterMap fun e => match e with | .connectSend n => some n | _ => none

/-! ## Chat session controller (`useOpenClawChat`)

React state and the mutable refs are collected into one record `CState`
(state setter and ref are always written together in the source; both fields
are kept where the source keeps both).  Fresh message ids (`createId`) come
from an explicit id supply `fid`; wall-clock time is an integer millisecond
parameter `now`.  `new Date(ms).toISOString()` is abstracted to the decimal
string of `ms`: timestamp strings are only consumed via their parsed
millisecond value, which the model carries alongside. -/

def isoString (ms : Int) : String := toString ms

inductive ChatRole where
  | user
  | assistant
  | system
  deriving DecidableEq

structure ChatImageItem where
  id : String
  dataUrl : String
  mimeType : String
  fileName : Option String
  deriving DecidableEq

structure ChatMessage where
  id : String
  role : ChatRole
  text : String
  createdAt : String
  streaming : Bool
  images : List ChatImageItem
  deriving DecidableEq

inductive ConnStatus where
  | idle
  | connecting
  | connected
  | error
  deriving DecidableEq

inductive ChatRunState where
  | queued
  | running
  | delta
  | final
  | aborted
  | error
  deriving DecidableEq

structure ChatEventPayload where
  runId : String
  sessionKey : String
  state : ChatRunState
  message : Option Json
  errorMessage : Option String

def parseRunState (s : String) : Option ChatRunState :=
  if s = "queued" then some .queued
  else if s = "running" then some .running
  else if s = "delta" then some .delta
  else if s = "final" then some .final
  else if s = "aborted" then some .aborted
  else if s = "error" then some .error
  else none

/-- `parseChatEvent`: validates the shape of a `chat` event payload. -/
def parseChatEvent (payload : Json) : Option ChatEventPayload :=
  match payload with
  | .obj fields =>
    match jStrField fields "runId", jStrField fields "sessionKey",
          jStrField fields "state" with
    | some runId, some sessionKey, some stateStr =>
      match parseRunState stateStr with
      | some state =>
        some { runId := runId, sessionKey := sessionKey, state := state,
               message := jLookup fields "message",
               errorMessage := jStrField fields "errorMessage" }
      | none => none
    | _, _, _ => none
  | _ => none

/-- Closure context captured by the `pollHistory` fallback armed in
`sendPrompt` (the captured `status` binding is always `"connected"` there,
because the guard in `sendPrompt` already checked it, so it is not stored). -/
structure PollCtx where
  token : Nat
  assistantMessageId : String
  keys : List String
  sendStartedAtMs : Int
  baseline : Option String
  agentIdAtSend : Option String
  deriving DecidableEq

structure CState where
  status : ConnStatus
  lastError : Option String
  screenText : String
  sessionKey : String
  sessionKeyRef : String
  mainSessionKey : String
  lastPrompt : String
  isStreaming : Bool
  chatMessages : List ChatMessage
  activeRunId : Option String
  activeAssistantMessageId : Option String
  activeAgentId : Option String
  streamingText : String
  imageErrorRecoveredSession : Option String
  hasClient : Bool
  fallbackTimer : Option (PollCtx × Nat)
  fallbackToken : Nat
  deriving DecidableEq

/-- `stopHistoryFallback`: clears the armed poll timer and bumps the
generation token so stale poll closures no-op. -/
def stopHistoryFallback (st : CState) : CState :=
  { st with fallbackTimer := none, fallbackToken := st.fallbackToken + 1 }

/-- The `setChatMessages(map …)` pattern used to rewrite one message. -/
def setMessageText (messages : List ChatMessage) (targetId text : String)
    (streamingFlag : Bool) : List ChatMessage :=
  messages.map fun m =>
    if m.id = targetId then { m with text := text, streaming := streamingFlag }
    else m

/-- `recoverSessionFromImageError` (the body has no suspension point, so the
`void`-invoked call runs to completion synchronously). -/
def recoverSessionFromImageError (now : Int) (fid : Nat → String)
    (st : CState) : CState :=
  let currentSessionKey := st.sessionKeyRef
  if st.imageErrorRecoveredSession = some currentSessionKey then st
  else
    let st := { st with imageErrorRecoveredSession := some currentSessionKey }
    let agentId :=
      match parseSessionAgentId currentSessionKey with
      | some a => a
      | none => st.activeAgentId.getD "main"
    let nextSessionKey := "agent:" ++ agentId ++ ":main:webui-" ++ toString now
    let st :=
      if agentId = "main" then { st with mainSessionKey := nextSessionKey }
      else st
    { st with
        sessionKey := nextSessionKey, sessionKeyRef := nextSessionKey,
        activeRunId := none, activeAssistantMessageId := none,
        streamingText := "", isStreaming := false, screenText := "",
        chatMessages := st.chatMessages ++
          [{ id := fid 0, role := .system,
             text := "检测到图片上下文异常，已自动切换到新会话。请重新发送图片。",
             createdAt := isoString now, streaming := false, images := [] }] }

/-- Asynchronous work requested (but not yet performed) by a handler. -/
inductive CAction where
  | loadConversation (sessionKey : String)
  deriving DecidableEq

/-- The run/session filter at the top of the `chat` event handler: with no
active run, an event for a different session is dropped; with an active run,
the event's `runId`/`sessionKey` are adopted as authoritative. -/
def chatEventFilter (st : CState) (p : ChatEventPayload) : Option CState :=
  match st.activeRunId with
  | some activeRunId =>
    let st :=
      if p.runId ≠ activeRunId then { st with activeRunId := some p.runId }
      else st
    let st :=
      if p.sessionKey ≠ st.sessionKeyRef then
        { st with sessionKey := p.sessionKey, sessionKeyRef := p.sessionKey }
      else st
    some st
  | none =>
    if p.sessionKey ≠ st.sessionKeyRef then none else some st

/-- The per-state branches of the `chat` event handler (run on the state the
filter produced). -/
def chatEventBranch (now : Int) (fid : Nat → String) (st : CState)
    (p : ChatEventPayload) : CState × List CAction :=
  match p.state with
  | .delta =>
    let st := stopHistoryFallback st
    let next := extractTextOpt p.message
    if next = "" then (st, [])
    else if st.streamingText.length ≤ next.length then
      let st := { st with streamingText := next,
                          screenText := trimScreenText next,
                          isStreaming := true }
      match st.activeAssistantMessageId with
      | none => (st, [])
      | some assistantId =>
        ({ st with chatMessages := setMessageText st.chatMessages assistantId next true }, [])
    else (st, [])
  | .queued => ({ st with isStreaming := true }, [])
  | .running => ({ st with isStreaming := true }, [])
  | .final =>
    let extracted := extractTextOpt p.message
    let finalText := if extracted ≠ "" then extracted else st.streamingText
    let st := { st with activeRunId := none, streamingText := "" }
    let assistantId := st.activeAssistantMessageId
    if jsTrim finalText ≠ "" then
      let st := stopHistoryFallback st
      let st := { st with isStreaming := false, activeAssistantMessageId := none,
                          lastError := none,
                          screenText := trimScreenText finalText }
      match assistantId with
      | some aid =>
        ({ st with chatMessages := setMessageText st.chatMessages aid finalText false }, [])
      | none => (st, [])
    else
      match assistantId with
      | none => ({ st with isStreaming := false },
                 [.loadConversation st.sessionKeyRef])
      | some _ => (st, [])
  | .aborted =>
    let st := stopHistoryFallback st
    let st := { st with activeRunId := none }
    let assistantId := st.activeAssistantMessageId
    let st := { st with activeAssistantMessageId := none, streamingText := "",
                        isStreaming := false, screenText := "本次运行已终止。" }
    match assistantId with
    | some aid =>
      ({ st with chatMessages := setMessageText st.chatMessages aid "本次运行已终止。" false }, [])
    | none => (st, [])
  | .error =>
    let st := stopHistoryFallback st
    let st := { st with activeRunId := none }
    let assistantId := st.activeAssistantMessageId
    let st := { st with activeAssistantMessageId := none, streamingText := "",
                        isStreaming := false }
    let rawErrorMessage := p.errorMessage.getD "chat error"
    let normalizedErrorMessage := normalizeGatewayErrorMessage rawErrorMessage
    let errorText := "错误: " ++ normalizedErrorMessage
    let st := { st with lastError := some normalizedErrorMessage,
                        screenText := trimScreenText errorText }
    let st :=
      match assistantId with
      | some aid =>
        { st with chatMessages := setMessageText st.chatMessages aid errorText false }
      | none => st
    if invalidImageDataTest rawErrorMessage then
      (recoverSessionFromImageError now fid st, [])
    else (st, [])

/-- The `chat` event handler on an already-parsed payload. -/
def handleChatPayload (now : Int) (fid : Nat → String) (st : CState)
    (p : ChatEventPayload) : CState × List CAction :=
  match chatEventFilter st p with
  | none => (st, [])
  | some st1 => chatEventBranch now fid st1 p

/-- The full subscription callback: non-`chat` events and unparseable chat
payloads are ignored. -/
def handleGatewayChatEvent (now : Int) (fid : Nat → String) (st : CState)
    (eventName : String) (payload : Json) : CState × List CAction :=
  if eventName ≠ "chat" then (st, [])
  else
    match parseChatEvent payload with
    | none => (st, [])
    | some p => handleChatPayload now fid st p

/-! ## `sendPrompt` and the history-poll fallback

`normalizeImageDataUrlForGateway` is a canvas re-encoding routine; its awaited
result (or, when it throws, the original data URL — the `catch` restores it)
is supplied as the function parameter `normalize`.  The awaited `chat.send`
response is supplied as the `SendOutcome` parameter.  History fetches inside
`pollHistory` are supplied per attempt as a `fetch` function from session key
to outcome, with a fetched message list represented by the value
`extractLatestAssistantReply` extracts from it (text, creation timestamp and
its parsed millisecond value, error flags). -/

def IMAGE_SEND_TOTAL_MAX_BYTES : Nat := 820 * 1024

structure OutboundAttachment where
  fileName : String
  mimeType : String
  size : Nat
  absolutePath : String
  relativePath : String
  imageDataUrl : Option String
  deriving DecidableEq

/-- One element of the `imageAttachments` array built by `sendPrompt`. -/
structure ImageEntry where
  attachment : OutboundAttachment
  payloadMimeType : String
  payloadContent : String
  image : ChatImageItem
  deriving DecidableEq

structure ImageLoopAcc where
  entries : List ImageEntry
  total : Nat
  dropped : Nat
  idUsed : Nat
  deriving DecidableEq

/-- One iteration of the attachment loop in `sendPrompt`: skip non-images,
normalize, parse the data URL, then either include the image (adding its
estimated byte size to the running total) or drop it when the cumulative
budget is exceeded and at least one image is already included. -/
def imageLoopStep (normalize : String → String) (fid : Nat → String)
    (acc : ImageLoopAcc) (a : OutboundAttachment) : ImageLoopAcc :=
  match a.imageDataUrl with
  | none => acc
  | some raw =>
    if raw = "" then acc
    else
      let dataUrl := normalize raw
      match parseDataUrlToBase64 dataUrl with
      | none => acc
      | some (parsedMime, content) =>
        let mimeType :=
          if parsedMime ≠ "" then parsedMime
          else if a.mimeType ≠ "" then a.mimeType
          else "image/png"
        let normalizedDataUrl := toImageDataUrl mimeType content
        let imageBytes := estimateBase64ByteLength content
        if IMAGE_SEND_TOTAL_MAX_BYTES < acc.total + imageBytes ∧ acc.entries ≠ [] then
          { acc with dropped := acc.dropped + 1 }
        else
          { acc with
              total := acc.total + imageBytes,
              entries := acc.entries ++
                [{ attachment := a, payloadMimeType := mimeType,
                   payloadContent := content,
                   image := { id := fid acc.idUsed, dataUrl := normalizedDataUrl,
                              mimeType := mimeType, fileName := some a.fileName } }],
              idUsed := acc.idUsed + 1 }

def imageLoop (normalize : String → String) (fid : Nat → String)
    (atts : List OutboundAttachment) : ImageLoopAcc :=
  atts.foldl (imageLoopStep normalize fid) { entries := [], total := 0, dropped := 0, idUsed := 0 }

def formatAttachmentLocation (a : OutboundAttachment) : String :=
  let absolutePath := jsTrim a.absolutePath
  if absolutePath ≠ "" then absolutePath ++ " (" ++ toFileUrl absolutePath ++ ")"
  else a.relativePath

def attachmentNote (imagePaths : List String) (a : OutboundAttachment) : String :=
  "- " ++ (if a.relativePath ∈ imagePaths then "[图片]" else "[文件]") ++ " " ++
  a.fileName ++ " (" ++
  (if a.mimeType ≠ "" then a.mimeType else "application/octet-stream") ++
  ") -> " ++ formatAttachmentLocation a

/-- `fileNotes`: one manifest line per attachment, joined with newlines. -/
def fileNotes (included : List ImageEntry)
    (atts : List OutboundAttachment) : String :=
  joinLines
    (atts.map (attachmentNote (included.map fun e => e.attachment.relativePath)))

/-- `messageWithAttachmentNotes` / `finalMessage` composition. -/
def composeFinalMessage (message notes : String) (hasImages : Bool) : String :=
  let messageWithAttachmentNotes :=
    if notes ≠ "" then jsTrim (message ++ "\n\n附件（已保存到项目目录）:\n" ++ notes)
    else message
  if messageWithAttachmentNotes ≠ "" then messageWithAttachmentNotes
  else if hasImages then "请结合我上传的图片回答。"
  else ""

/-- `pickLatestAssistantText`: the latest assistant message whose trimmed text
is neither empty nor the placeholder. -/
def pickLatestAssistantText (messages : List ChatMessage) : Option String :=
  match messages.reverse.find? (fun m =>
      m.role = ChatRole.assistant ∧ jsTrim m.text ≠ "" ∧ jsTrim m.text ≠ "正在思考...") with
  | some m => some (jsTrim m.text)
  | none => none

/-- Result of awaiting the `chat.send` request. -/
inductive SendOutcome where
  | ok (payload : Json)
  | err (message : String)

/-- `sendPrompt`. -/
def sendPrompt (normalize : String → String) (fid : Nat → String) (now : Int)
    (st : CState) (prompt : String)
    (attachments : Option (List OutboundAttachment))
    (outcome : SendOutcome) : Bool × CState :=
  let message := jsTrim prompt
  let safeAttachments := attachments.getD []
  let acc := imageLoop normalize fid safeAttachments
  let notes := fileNotes acc.entries safeAttachments
  let finalMessage := composeFinalMessage message notes (acc.entries ≠ [])
  if finalMessage = "" then (false, st)
  else if ¬ st.hasClient ∨ st.status ≠ .connected then
    (false, { st with lastError := some "Gateway 未连接，请先建立连接。" })
  else if st.activeRunId.isSome then
    (false, { st with lastError := some "已有进行中的请求，请等待当前回复完成。" })
  else
    let currentSessionKey := st.sessionKeyRef
    let historySessionKeys := jsSetDedup
      (if st.activeAgentId = some "main" then
        [currentSessionKey, st.mainSessionKey, "main", "agent:main:main"]
       else [currentSessionKey, st.mainSessionKey])
    let n := acc.idUsed
    let idempotencyKey := fid n
    let assistantMessageId := fid (n + 1)
    let createdAt := isoString now
    let sendStartedAtMs := now
    let baselineAssistantText := pickLatestAssistantText st.chatMessages
    let st := { st with
      activeRunId := some idempotencyKey,
      activeAssistantMessageId := some assistantMessageId,
      streamingText := "",
      isStreaming := true,
      lastError :=
        if 0 < acc.dropped then
          some ("已自动跳过 " ++ toString acc.dropped ++ " 张超大图片。")
        else none,
      lastPrompt := finalMessage,
      screenText := "",
      chatMessages := st.chatMessages ++
        [{ id := fid (n + 2), role := .user, text := message,
           createdAt := createdAt, streaming := false,
           images := acc.entries.map fun e => e.image },
         { id := assistantMessageId, role := .assistant, text := "正在思考...",
           createdAt := createdAt, streaming := true, images := [] }] }
    match outcome with
    | .ok payload =>
      let st :=
        match payload with
        | .obj fields =>
          match jStrField fields "runId" with
          | some rid =>
            if jsTrim rid ≠ "" then { st with activeRunId := some (jsTrim rid) } else st
          | none => st
        | _ => st
      let st := stopHistoryFallback st
      let fallbackToken := st.fallbackToken + 1
      let st := { st with fallbackToken := fallbackToken }
      let ctx : PollCtx := { token := fallbackToken,
                             assistantMessageId := assistantMessageId,
                             keys := historySessionKeys,
                             sendStartedAtMs := sendStartedAtMs,
                             baseline := baselineAssistantText,
                             agentIdAtSend := st.activeAgentId }
      (true, { st with fallbackTimer := some (ctx, 1) })
    | .err messageText =>
      let st := stopHistoryFallback st
      (false, { st with
        activeRunId := none, activeAssistantMessageId := none,
        streamingText := "", isStreaming := false,
        lastError := some messageText,
        screenText := trimScreenText ("请求失败: " ++ messageText),
        chatMessages := setMessageText st.chatMessages assistantMessageId
          ("请求失败: " ++ messageText) false })

/-- The value `extractLatestAssistantReply` produced from one fetched history
(`createdAtMs` is `Date.parse(createdAt)`, `none` when not finite). -/
structure HistReply where
  text : String
  createdAt : String
  createdAtMs : Option Int
  isError : Bool
  rawError : Option String
  deriving DecidableEq

inductive FetchOutcome where
  | fail
  | ok (latestAssistant : Option HistReply)

/-- The acceptance test in `pollHistory`: reply timestamp at or after the send
time minus 1500ms of slack, or text differing from the pre-send baseline
(`sendStartedAtMs` is always finite in the source, being parsed from the iso
string it just produced). -/
def adoptable (ctx : PollCtx) (r : HistReply) : Bool :=
  let isLikelyNewByTime :=
    match r.createdAtMs with
    | some ms => decide (ctx.sendStartedAtMs - 1500 ≤ ms)
    | none => false
  let isLikelyNewByText :=
    match ctx.baseline with
    | none => true
    | some b => decide (jsTrim r.text ≠ jsTrim b)
  isLikelyNewByTime || isLikelyNewByText

/-- The `for (const historySessionKey of historySessionKeys)` scan: failed
fetches and unacceptable replies are skipped, the first acceptable reply wins. -/
def firstAdoptable (fetch : String → FetchOutcome) (ctx : PollCtx) :
    List String → Option (String × HistReply)
  | [] => none
  | key :: rest =>
    match fetch key with
    | .fail => firstAdoptable fetch ctx rest
    | .ok none => firstAdoptable fetch ctx rest
    | .ok (some r) =>
      if adoptable ctx r then some (key, r) else firstAdoptable fetch ctx rest

/-- One firing of the armed `pollHistory(attempt)` timer.  The stale checks
mirror the source: generation token, live client (the captured `status`
binding is always `"connected"`), and the assistant placeholder still being
the one this poll was armed for. -/
def pollTick (now : Int) (fid : Nat → String) (fetch : String → FetchOutcome)
    (st : CState) : CState :=
  match st.fallbackTimer with
  | none => st
  | some (ctx, attempt) =>
    let st := { st with fallbackTimer := none }
    if ctx.token ≠ st.fallbackToken then st
    else if ¬ st.hasClient then st
    else if st.activeAssistantMessageId ≠ some ctx.assistantMessageId then st
    else
      match firstAdoptable fetch ctx ctx.keys with
      | some (historySessionKey, latestAssistant) =>
        let st := stopHistoryFallback st
        let st := { st with
          activeRunId := none, activeAssistantMessageId := none,
          streamingText := "", isStreaming := false,
          screenText := trimScreenText latestAssistant.text,
          lastError :=
            if latestAssistant.isError then some (dropErrorLabel latestAssistant.text)
            else none }
        let st :=
          if historySessionKey ≠ st.sessionKeyRef then
            { st with sessionKey := historySessionKey,
                      sessionKeyRef := historySessionKey }
          else st
        let st := { st with chatMessages := st.chatMessages.map fun m =>
          if m.id = ctx.assistantMessageId then
            { m with text := latestAssistant.text,
                     createdAt := latestAssistant.createdAt, streaming := false }
          else m }
        match latestAssistant.rawError with
        | some rawError =>
          if invalidImageDataTest rawError then
            recoverSessionFromImageError now fid st
          else st
        | none => st
      | none =>
        if 20 ≤ attempt then
          let st := stopHistoryFallback st
          let timeoutText :=
            if ctx.agentIdAtSend = some "main" then
              "请求超时：main 房间未收到回复（已尝试主会话和 agent:main:main）。请重连后再试。"
            else "请求超时：未收到回复，请重连后再试。"
          { st with
            activeRunId := none, activeAssistantMessageId := none,
            streamingText := "", isStreaming := false,
            lastError := some timeoutText,
            screenText := trimScreenText timeoutText,
            chatMessages := setMessageText st.chatMessages ctx.assistantMessageId
              timeoutText false }
        else { st with fallbackTimer := some (ctx, attempt + 1) }

/-- A sequence of poll-timer firings with the given per-attempt fetches. -/
def runPolls (now : Int) (fid : Nat → String)
    (fetches : List (String → FetchOutcome)) (st : CState) : CState :=
  fetches.foldl (fun s f => pollTick now fid f s) st

/-! ## Concrete fixtures used by witnesses and counterexamples -/

/-- A deterministic id supply standing in for `createId()`. -/
def fid0 : Nat → String := fun n => "id-" ++ toString n

def welcomeMessage : ChatMessage :=
  { id := "welcome", role := .system, text := "连接 Gateway 后开始问答。",
    createdAt := "0", streaming := false, images := [] }

/-- A connected controller with no active run. -/
def baseCState : CState :=
  { status := .connected, lastError := none, screenText := "",
    sessionKey := "main", sessionKeyRef := "main", mainSessionKey := "main",
    lastPrompt := "", isStreaming := false,
    chatMessages := [welcomeMessage],
    activeRunId := none, activeAssistantMessageId := none,
    activeAgentId := some "main", streamingText := "",
    imageErrorRecoveredSession := none, hasClient := true,
    fallbackTimer := none, fallbackToken := 0 }

def assistantPlaceholder : ChatMessage :=
  { id := "asst-1", role := .assistant, text := "正在思考...",
    createdAt := "0", streaming := true, images := [] }

/-- A controller with run `run-1` in flight and buffered text `"abcde"`. -/
def streamingCState : CState :=
  { baseCState with
      activeRunId := some "run-1", activeAssistantMessageId := some "asst-1",
      isStreaming := true, streamingText := "abcde",
      chatMessages := [welcomeMessage, assistantPlaceholder] }

def deltaPayload (text : String) : ChatEventPayload :=
  { runId := "run-1", sessionKey := "main", state := .delta,
    message := some (.str text), errorMessage := none }

/-- ## Helper lemmas on the event filter -/

lemma chatEventFilter_active {st : CState} {p : ChatEventPayload} {r : String}
    (h : st.activeRunId = some r) :
    chatEventFilter st p = some
      { st with activeRunId := some p.runId,
                sessionKey := if p.sessionKey ≠ st.sessionKeyRef then p.sessionKey
                              else st.sessionKey,
                sessionKeyRef := p.sessionKey } := by
  obtain ⟨f1, f2, f3, f4, f5, f6, f7, f8, f9, f10, f11, f12, f13, f14, f15, f16, f17⟩ := st
  simp only at h
  subst h
  simp only [chatEventFilter]
  split_ifs <;> simp_all

lemma chatEventFilter_stale {st : CState} {p : ChatEventPayload}
    (h : st.activeRunId = none) (hk : p.sessionKey ≠ st.sessionKeyRef) :
    chatEventFilter st p = none := by
  simp [chatEventFilter, h, hk]

lemma chatEventFilter_norun {st : CState} {p : ChatEventPayload}
    (h : st.activeRunId = none) (hk : p.sessionKey = st.sessionKeyRef) :
    chatEventFilter st p = some st := by
  simp [chatEventFilter, h, hk]

/-! ## Claims -/

/-- C2: on a chat delta event for the active run, the buffered streaming text
and the visible assistant message are updated only if the new delta text's
length is at least the length of the previously buffered text; a shorter delta
is ignored (its arrival changes neither the buffer nor the message list). -/
theorem C2_delta_monotonicity (now : Int) (fid : Nat → String) (st : CState)
    (p : ChatEventPayload) (r : String)
    (hrun : st.activeRunId = some r) (hdelta : p.state = .delta) :
    ((extractTextOpt p.message).length < st.streamingText.length →
      ((handleChatPayload now fid st p).1.streamingText = st.streamingText ∧
       (handleChatPayload now fid st p).1.chatMessages = st.chatMessages)) ∧
    (extractTextOpt p.message ≠ "" →
      st.streamingText.length ≤ (extractTextOpt p.message).length →
      ((handleChatPayload now fid st p).1.streamingText = extractTextOpt p.message ∧
       (handleChatPayload now fid st p).1.isStreaming = true ∧
       ∀ aid, st.activeAssistantMessageId = some aid →
         (handleChatPayload now fid st p).1.chatMessages =
           setMessageText st.chatMessages aid (extractTextOpt p.message) true)) := by
  have hf := chatEventFilter_active (p := p) hrun
  obtain ⟨prunId, psk, pstate, pmsg, perr⟩ := p
  simp only at hdelta
  subst hdelta
  simp only [handleChatPayload, hf, chatEventBranch, stopHistoryFallback]
  constructor
  · intro hlt
    have hlen : ¬ st.streamingText.length ≤ (extractTextOpt pmsg).length := by omega
    by_cases hnext : extractTextOpt pmsg = ""
    · simp [hnext]
    · simp [hnext, hlen]
  · intro hne hle
    cases hma : st.activeAssistantMessageId with
    | none =>
      refine ⟨?_, ?_, ?_⟩
      · simp [hne, hle, hma]
      · simp [hne, hle, hma]
      · intro aid haid
        simp [hma] at haid
    | some a =>
      refine ⟨?_, ?_, ?_⟩
      · simp [hne, hle, hma]
      · simp [hne, hle, hma]
      · intro aid haid
        injection haid with haid
        subst haid
        simp [hne, hle, hma]

/-- Witness for C2 at the spec's `[5, 3, 9]` scenario: from buffer `"abcde"`
(length 5), a length-3 delta leaves buffer and messages unchanged, and a
length-9 delta updates the buffer. -/
theorem C2_delta_monotonicity_witness :
    ((handleChatPayload 0 fid0 streamingCState (deltaPayload "abc")).1.streamingText
        = streamingCState.streamingText ∧
     (handleChatPayload 0 fid0 streamingCState (deltaPayload "abc")).1.chatMessages
        = streamingCState.chatMessages) ∧
    (handleChatPayload 0 fid0 streamingCState (deltaPayload "abcdefghi")).1.streamingText
        = extractTextOpt (deltaPayload "abcdefghi").message :=
  ⟨(C2_delta_monotonicity 0 fid0 streamingCState (deltaPayload "abc") "run-1"
      rfl rfl).1
      (by simp only [deltaPayload, extractTextOpt, extractText]; decide),
   ((C2_delta_monotonicity 0 fid0 streamingCState (deltaPayload "abcdefghi") "run-1"
      rfl rfl).2
      (by simp only [deltaPayload, extractTextOpt, extractText]; decide)
      (by simp only [deltaPayload, extractTextOpt, extractText]; decide)).1⟩

/-- C5: with no active run, a chat event whose `sessionKey` differs from the
controller's current key is ignored entirely (state unchanged, no actions);
with an active run, the filter adopts the event's `runId` and `sessionKey` as
the authoritative active run id and current session key. -/
theorem C5_session_filter_and_adoption (now : Int) (fid : Nat → String)
    (st : CState) (p : ChatEventPayload) :
    (st.activeRunId = none → p.sessionKey ≠ st.sessionKeyRef →
      handleChatPayload now fid st p = (st, [])) ∧
    (∀ r, st.activeRunId = some r →
      ∃ st1, chatEventFilter st p = some st1 ∧
        st1.activeRunId = some p.runId ∧
        st1.sessionKeyRef = p.sessionKey ∧
        (p.sessionKey ≠ st.sessionKeyRef → st1.sessionKey = p.sessionKey)) := by
  constructor
  · intro h hk
    simp [handleChatPayload, chatEventFilter_stale h hk]
  · intro r h
    refine ⟨_, chatEventFilter_active h, by simp, by simp, ?_⟩
    intro hk
    simp [hk]

/-- Witness for C5: a stale-session event with no active run leaves the
controller untouched; the same differing session key during an active run is
adopted together with the event's run id. -/
theorem C5_session_filter_and_adoption_witness :
    (handleChatPayload 0 fid0 baseCState
        { runId := "other-run", sessionKey := "other-session", state := .queued,
          message := none, errorMessage := none } = (baseCState, [])) ∧
    (∃ st1, chatEventFilter streamingCState
        { runId := "other-run", sessionKey := "other-session", state := .queued,
          message := none, errorMessage := none } = some st1 ∧
      st1.activeRunId = some "other-run" ∧ st1.sessionKeyRef = "other-session") :=
  ⟨(C5_session_filter_and_adoption 0 fid0 baseCState _).1 rfl (by decide),
   ((C5_session_filter_and_adoption 0 fid0 streamingCState _).2 "run-1" rfl).imp
     fun _ h => ⟨h.1, h.2.1, h.2.2.1⟩⟩

/-- The text a `final` event finalizes with: the event's extracted text when
non-empty, else the buffered streaming text. -/
def finalTextOf (st : CState) (p : ChatEventPayload) : String :=
  if extractTextOpt p.message ≠ "" then extractTextOpt p.message
  else st.streamingText

def pollCtx1 : PollCtx :=
  { token := 1, assistantMessageId := "asst-1", keys := ["main"],
    sendStartedAtMs := 0, baseline := none, agentIdAtSend := some "main" }

/-- A controller mid-run with an empty delta buffer and the history-poll
fallback armed (the state right after a successful `sendPrompt`). -/
def inFlightCState : CState :=
  { streamingCState with streamingText := "",
                         fallbackTimer := some (pollCtx1, 1), fallbackToken := 1 }

def finalEmptyPayload : ChatEventPayload :=
  { runId := "run-1", sessionKey := "main", state := .final,
    message := none, errorMessage := none }

/-- C4 counterexample: on a `final` event whose extracted text is empty (and
with nothing buffered), the claim says run state is NOT cleared, but the code
unconditionally clears the active run id (and the buffer) before testing the
text. -/
theorem C4_counterexample :
    inFlightCState.activeRunId = some "run-1" ∧
    extractTextOpt finalEmptyPayload.message = "" ∧
    (handleChatPayload 0 fid0 inFlightCState finalEmptyPayload).1.activeRunId = none :=
  ⟨rfl, rfl, rfl⟩

/-- C4 (amended): on a `final` event for the active run, when the extracted
(or buffered) text is non-blank the assistant message is finalized and all run
state is cleared; when it is blank, the active run id and buffer are still
cleared, but the assistant placeholder, the streaming flag and the armed
history-poll fallback are left untouched — the in-flight poll remains the
authority for completing the run. -/
theorem C4_final_event (now : Int) (fid : Nat → String) (st : CState)
    (p : ChatEventPayload) (r : String)
    (hrun : st.activeRunId = some r) (hfinal : p.state = .final) :
    (jsTrim (finalTextOf st p) ≠ "" →
      ((handleChatPayload now fid st p).1.activeRunId = none ∧
       (handleChatPayload now fid st p).1.streamingText = "" ∧
       (handleChatPayload now fid st p).1.isStreaming = false ∧
       (handleChatPayload now fid st p).1.activeAssistantMessageId = none ∧
       (handleChatPayload now fid st p).1.fallbackTimer = none ∧
       ∀ aid, st.activeAssistantMessageId = some aid →
         (handleChatPayload now fid st p).1.chatMessages =
           setMessageText st.chatMessages aid (finalTextOf st p) false)) ∧
    (jsTrim (finalTextOf st p) = "" →
      ∀ aid, st.activeAssistantMessageId = some aid →
      ((handleChatPayload now fid st p).1.activeRunId = none ∧
       (handleChatPayload now fid st p).1.streamingText = "" ∧
       (handleChatPayload now fid st p).1.activeAssistantMessageId = some aid ∧
       (handleChatPayload now fid st p).1.isStreaming = st.isStreaming ∧
       (handleChatPayload now fid st p).1.fallbackTimer = st.fallbackTimer ∧
       (handleChatPayload now fid st p).1.fallbackToken = st.fallbackToken ∧
       (handleChatPayload now fid st p).1.chatMessages = st.chatMessages ∧
       (handleChatPayload now fid st p).2 = [])) := by
  have hf := chatEventFilter_active (p := p) hrun
  have hft : finalTextOf st p =
      (if extractTextOpt p.message ≠ "" then extractTextOpt p.message
       else st.streamingText) := rfl
  obtain ⟨prunId, psk, pstate, pmsg, perr⟩ := p
  simp only at hfinal
  subst hfinal
  simp only [handleChatPayload, hf, chatEventBranch, stopHistoryFallback]
  rw [hft]
  constructor
  · intro htrim
    cases hma : st.activeAssistantMessageId with
    | none =>
      refine ⟨?_, ?_, ?_, ?_, ?_, ?_⟩ <;> simp_all
    | some a =>
      refine ⟨?_, ?_, ?_, ?_, ?_, ?_⟩
      · simp_all
      · simp_all
      · simp_all
      · simp_all
      · simp_all
      · intro aid haid
        injection haid with haid
        subst haid
        simp_all
  · intro htrim aid haid
    cases hma : st.activeAssistantMessageId with
    | none => simp [hma] at haid
    | some a =>
      rw [hma] at haid
      injection haid with haid
      subst haid
      refine ⟨?_, ?_, ?_, ?_, ?_, ?_, ?_, ?_⟩ <;> simp_all

/-- Witness for C4: a `final` event carrying `"Hello there"` finalizes and
clears run state; a `final` event with no message text leaves the placeholder
and the armed fallback in place. -/
theorem C4_final_event_witness :
    ((handleChatPayload 0 fid0 inFlightCState
        { runId := "run-1", sessionKey := "main", state := .final,
          message := some (.str "Hello there"), errorMessage := none }).1.isStreaming
      = false) ∧
    ((handleChatPayload 0 fid0 inFlightCState finalEmptyPayload).1.activeAssistantMessageId
      = some "asst-1" ∧
     (handleChatPayload 0 fid0 inFlightCState finalEmptyPayload).1.fallbackTimer
      = inFlightCState.fallbackTimer) :=
  ⟨((C4_final_event 0 fid0 inFlightCState _ "run-1" rfl rfl).1
      (by simp only [finalTextOf, extractTextOpt, extractText]; decide)).2.2.1,
   (fun h => ⟨h.2.2.1, h.2.2.2.2.1⟩)
     ((C4_final_event 0 fid0 inFlightCState finalEmptyPayload "run-1" rfl rfl).2
       (by decide) "asst-1" rfl)⟩

/-- The final outbound message `sendPrompt` composes before its guards
(trimmed prompt, attachment manifest, image-only fallback). -/
def sendPromptFinalMessage (normalize : String → String) (fid : Nat → String)
    (prompt : String) (attachments : Option (List OutboundAttachment)) : String :=
  let message := jsTrim prompt
  let safeAttachments := attachments.getD []
  let acc := imageLoop normalize fid safeAttachments
  composeFinalMessage message (fileNotes acc.entries safeAttachments)
    (acc.entries ≠ [])

/-- C1 counterexample: a `sendPrompt` call while a run is active does return
`false` and appends nothing, but it is not free of visible side effects — it
overwrites `lastError` with a run-in-progress notice. -/
theorem C1_counterexample :
    streamingCState.lastError = none ∧
    (sendPrompt id fid0 0 streamingCState "hi" none (.err "e")).1 = false ∧
    (sendPrompt id fid0 0 streamingCState "hi" none (.err "e")).2.lastError
      = some "已有进行中的请求，请等待当前回复完成。" :=
  ⟨rfl, rfl, rfl⟩

/-- C1 (amended): each early-return path of `sendPrompt` returns `false` and
appends no message; the nothing-to-send path changes nothing at all, while
the not-connected and run-already-active paths (the latter guarded by the
active run id, which normally accompanies `isStreaming`) change only
`lastError`, setting it to an explanatory notice. -/
theorem C1_sendPrompt_guards (normalize : String → String) (fid : Nat → String)
    (now : Int) (st : CState) (prompt : String)
    (attachments : Option (List OutboundAttachment)) (outcome : SendOutcome) :
    (sendPromptFinalMessage normalize fid prompt attachments = "" →
      sendPrompt normalize fid now st prompt attachments outcome = (false, st)) ∧
    (sendPromptFinalMessage normalize fid prompt attachments ≠ "" →
      (¬ st.hasClient ∨ st.status ≠ .connected) →
      sendPrompt normalize fid now st prompt attachments outcome =
        (false, { st with lastError := some "Gateway 未连接，请先建立连接。" })) ∧
    (sendPromptFinalMessage normalize fid prompt attachments ≠ "" →
      st.hasClient → st.status = .connected → st.activeRunId.isSome →
      sendPrompt normalize fid now st prompt attachments outcome =
        (false, { st with lastError := some "已有进行中的请求，请等待当前回复完成。" })) := by
  refine ⟨?_, ?_, ?_⟩
  · intro h
    simp only [sendPrompt, sendPromptFinalMessage] at h ⊢
    rw [if_pos h]
  · intro h hdis
    simp only [sendPrompt, sendPromptFinalMessage] at h ⊢
    rw [if_neg h, if_pos (by simpa using hdis)]
  · intro h hcl hst hrun
    simp only [sendPrompt, sendPromptFinalMessage] at h ⊢
    rw [if_neg h, if_neg (by simp [hcl, hst]), if_pos hrun]

/-- A disconnected controller. -/
def idleCState : CState := { baseCState with status := .idle, hasClient := false }

/-- Witness for C1: an all-whitespace prompt with no attachments is a silent
no-op; a prompt while disconnected sets only the connection notice; a prompt
during an active run sets only the run-in-progress notice. -/
theorem C1_sendPrompt_guards_witness :
    (sendPrompt id fid0 0 baseCState "  " none (.err "e") = (false, baseCState)) ∧
    (sendPrompt id fid0 0 idleCState "hi" none (.err "e") =
      (false, { idleCState with lastError := some "Gateway 未连接，请先建立连接。" })) ∧
    (sendPrompt id fid0 0 streamingCState "hi" none (.err "e") =
      (false, { streamingCState with lastError := some "已有进行中的请求，请等待当前回复完成。" })) :=
  ⟨(C1_sendPrompt_guards id fid0 0 baseCState "  " none (.err "e")).1 (by decide),
   (C1_sendPrompt_guards id fid0 0 idleCState "hi" none (.err "e")).2.1
     (by decide) (by simp [idleCState]),
   (C1_sendPrompt_guards id fid0 0 streamingCState "hi" none (.err "e")).2.2
     (by decide) rfl rfl rfl⟩

/-- Substring containment (used to refute claims about message contents). -/
def containsSub (s sub : String) : Bool :=
  (List.range (s.data.length + 1)).any fun i => listMatchesAt sub.data s.data i

lemma mem_dropWhile_of_not {p : Char → Bool} {c : Char} :
    ∀ {l : List Char}, c ∈ l → ¬ p c → c ∈ l.dropWhile p := by
  intro l
  induction l with
  | nil => intro h; cases h
  | cons hd tl ih =>
    intro hmem hnp
    by_cases hp : p hd
    · rw [List.dropWhile_cons_of_pos hp]
      rcases List.mem_cons.mp hmem with heq | htl
      · subst heq; exact absurd hp hnp
      · exact ih htl hnp
    · rw [List.dropWhile_cons_of_neg hp]
      exact hmem

lemma jsTrim_ne_empty {s : String} {c : Char} (hc : c ∈ s.data)
    (hw : ¬ isJsWhitespace c) : jsTrim s ≠ "" := by
  intro h
  have h0 : jsTrimList s.data = [] := by
    have := congrArg String.data h
    simpa [jsTrim] using this
  have h1 : c ∈ jsTrimList s.data := by
    unfold jsTrimList
    rw [List.mem_reverse]
    apply mem_dropWhile_of_not _ hw
    rw [List.mem_reverse]
    exact mem_dropWhile_of_not hc hw
  rw [h0] at h1
  cases h1

lemma attachmentNote_length_pos (ps : List String) (a : OutboundAttachment) :
    1 ≤ (attachmentNote ps a).length := by
  unfold attachmentNote
  split_ifs <;>
    simp [String.length_append,
      show ("- [图片] " : String).length = 7 by decide,
      show ("- [文件] " : String).length = 7 by decide] <;>
    omega

lemma joinLines_length_head (x : String) (l : List String) :
    x.length ≤ (joinLines (x :: l)).length := by
  cases l with
  | nil => simp [joinLines]
  | cons y rest =>
    simp [joinLines, String.length_append]
    omega

lemma fileNotes_ne_empty (inc : List ImageEntry)
    {atts : List OutboundAttachment} (h : atts ≠ []) :
    fileNotes inc atts ≠ "" := by
  intro hemp
  cases atts with
  | nil => exact h rfl
  | cons a rest =>
    have h1 := attachmentNote_length_pos
      (inc.map fun e => e.attachment.relativePath) a
    have h2 := joinLines_length_head
      (attachmentNote (inc.map fun e => e.attachment.relativePath) a)
      (rest.map (attachmentNote (inc.map fun e => e.attachment.relativePath)))
    have h3 : fileNotes inc (a :: rest) = joinLines
        ((attachmentNote (inc.map fun e => e.attachment.relativePath) a) ::
         rest.map (attachmentNote (inc.map fun e => e.attachment.relativePath))) := by
      simp [fileNotes]
    rw [hemp] at h3
    have h4 := congrArg String.length h3
    simp at h4
    omega

/-- An image attachment fixture: a small PNG stored at relative path `p`. -/
def att1 : OutboundAttachment :=
  { fileName := "a.png", mimeType := "image/png", size := 1,
    absolutePath := "", relativePath := "p",
    imageDataUrl := some "data:image/png;base64,AAAA" }

/-- C10 counterexample: with whitespace-only text and one surviving image
attachment, the outbound message is the attachment manifest alone — the fixed
substitute prompt `请结合我上传的图片回答。` appears nowhere in it (the claim
says the message is the substitute prompt plus the manifest). -/
theorem C10_counterexample :
    (sendPrompt id fid0 0 baseCState " " (some [att1]) (.ok (Json.obj []))).1 = true ∧
    (sendPrompt id fid0 0 baseCState " " (some [att1]) (.ok (Json.obj []))).2.lastPrompt
      = "附件（已保存到项目目录）:\n- [图片] a.png (image/png) -> p" ∧
    containsSub
      (sendPrompt id fid0 0 baseCState " " (some [att1]) (.ok (Json.obj []))).2.lastPrompt
      "请结合我上传的图片回答。" = false :=
  ⟨rfl, rfl, by decide⟩

/-- C10 (amended): when the prompt trims to empty but at least one image
attachment survives parsing, `sendPrompt` does not fail with nothing-to-send:
the outbound message is the trimmed attachment manifest appended to the empty
text (never the fixed substitute prompt, which is reachable only with no
attachments at all), and the call returns `true` on a successful send. -/
theorem C10_imageOnly_send (normalize : String → String) (fid : Nat → String)
    (now : Int) (st : CState) (prompt : String)
    (atts : Option (List OutboundAttachment)) (payload : Json)
    (hmsg : jsTrim prompt = "")
    (himg : (imageLoop normalize fid (atts.getD [])).entries ≠ [])
    (hcl : st.hasClient) (hst : st.status = .connected)
    (hrun : st.activeRunId = none) :
    (sendPrompt normalize fid now st prompt atts (.ok payload)).1 = true ∧
    (sendPrompt normalize fid now st prompt atts (.ok payload)).2.lastPrompt
      = sendPromptFinalMessage normalize fid prompt atts ∧
    sendPromptFinalMessage normalize fid prompt atts
      = jsTrim (jsTrim prompt ++ "\n\n附件（已保存到项目目录）:\n" ++
          fileNotes (imageLoop normalize fid (atts.getD [])).entries (atts.getD [])) := by
  have hsa : atts.getD [] ≠ [] := by
    intro he
    rw [he] at himg
    exact himg rfl
  have hnotes : fileNotes (imageLoop normalize fid (atts.getD [])).entries
      (atts.getD []) ≠ "" := fileNotes_ne_empty _ hsa
  have hmem : '附' ∈ (jsTrim prompt ++ "\n\n附件（已保存到项目目录）:\n" ++
      fileNotes (imageLoop normalize fid (atts.getD [])).entries (atts.getD [])).data := by
    rw [String.data_append, String.data_append]
    refine List.mem_append.mpr (Or.inl (List.mem_append.mpr (Or.inr ?_)))
    decide
  have hmw : jsTrim (jsTrim prompt ++ "\n\n附件（已保存到项目目录）:\n" ++
      fileNotes (imageLoop normalize fid (atts.getD [])).entries (atts.getD [])) ≠ "" :=
    jsTrim_ne_empty hmem (by decide)
  have hcompose : sendPromptFinalMessage normalize fid prompt atts
      = jsTrim (jsTrim prompt ++ "\n\n附件（已保存到项目目录）:\n" ++
          fileNotes (imageLoop normalize fid (atts.getD [])).entries (atts.getD [])) := by
    simp only [sendPromptFinalMessage, composeFinalMessage]
    rw [if_pos hnotes, if_pos hmw]
  have hfm : ¬ (composeFinalMessage (jsTrim prompt)
      (fileNotes (imageLoop normalize fid (atts.getD [])).entries (atts.getD []))
      (decide ((imageLoop normalize fid (atts.getD [])).entries ≠ [])) = "") := by
    have : sendPromptFinalMessage normalize fid prompt atts ≠ "" := by
      rw [hcompose]; exact hmw
    simpa [sendPromptFinalMessage] using this
  refine ⟨?_, ?_, hcompose⟩
  · simp only [sendPrompt]
    rw [if_neg hfm, if_neg (by simp [hcl, hst]), if_neg (by simp [hrun])]
  · have hlp : sendPromptFinalMessage normalize fid prompt atts
        = composeFinalMessage (jsTrim prompt)
            (fileNotes (imageLoop normalize fid (atts.getD [])).entries (atts.getD []))
            (decide ((imageLoop normalize fid (atts.getD [])).entries ≠ [])) := rfl
    rw [hlp]
    simp only [sendPrompt]
    rw [if_neg hfm, if_neg (by simp [hcl, hst]), if_neg (by simp [hrun])]
    cases payload <;> simp only [stopHistoryFallback] <;> try rfl
    case obj fields =>
      cases hrf : jStrField fields "runId" with
      | none => simp [hrf]
      | some rid =>
        simp only [hrf]
        split_ifs <;> rfl

/-- Witness for C10: the concrete whitespace-prompt, one-image call returns
`true` with the manifest as outbound message. -/
theorem C10_imageOnly_send_witness :
    (sendPrompt id fid0 0 baseCState " " (some [att1]) (.ok (Json.obj []))).1 = true ∧
    (sendPrompt id fid0 0 baseCState " " (some [att1]) (.ok (Json.obj []))).2.lastPrompt
      = sendPromptFinalMessage id fid0 " " (some [att1]) :=
  ⟨(C10_imageOnly_send id fid0 0 baseCState " " (some [att1]) (Json.obj [])
      (by decide) (by decide) rfl rfl rfl).1,
   (C10_imageOnly_send id fid0 0 baseCState " " (some [att1]) (Json.obj [])
      (by decide) (by decide) rfl rfl rfl).2.1⟩

/-- An attachment that survives the image-parsing stage of `sendPrompt`
(non-empty `imageDataUrl` whose normalized form parses as a data URL). -/
def isImageCandidate (normalize : String → String) (a : OutboundAttachment) : Bool :=
  match a.imageDataUrl with
  | none => false
  | some raw => raw ≠ "" && (parseDataUrlToBase64 (normalize raw)).isSome

lemma imageLoopStep_not_candidate {normalize : String → String}
    {fid : Nat → String} {acc : ImageLoopAcc} {a : OutboundAttachment}
    (h : isImageCandidate normalize a = false) :
    imageLoopStep normalize fid acc a = acc := by
  unfold isImageCandidate at h
  unfold imageLoopStep
  cases hu : a.imageDataUrl with
  | none => rfl
  | some raw =>
    rw [hu] at h
    simp only [Bool.and_eq_false_iff] at h
    by_cases hr : raw = ""
    · simp [hr]
    · have hp : parseDataUrlToBase64 (normalize raw) = none := by
        rcases h with h | h
        · simp [hr] at h
        · exact Option.not_isSome_iff_eq_none.mp (by simp [h])
      simp [hr, hp]

lemma imageLoopStep_candidate {normalize : String → String}
    {fid : Nat → String} (acc : ImageLoopAcc) {a : OutboundAttachment}
    (h : isImageCandidate normalize a = true) :
    ((imageLoopStep normalize fid acc a).entries = acc.entries ∧
     (imageLoopStep normalize fid acc a).dropped = acc.dropped + 1 ∧
     acc.entries ≠ []) ∨
    (∃ e, (imageLoopStep normalize fid acc a).entries = acc.entries ++ [e] ∧
     (imageLoopStep normalize fid acc a).dropped = acc.dropped) := by
  unfold isImageCandidate at h
  unfold imageLoopStep
  cases hu : a.imageDataUrl with
  | none => rw [hu] at h; cases h
  | some raw =>
    rw [hu] at h
    simp only [Bool.and_eq_true, decide_eq_true_eq] at h
    obtain ⟨hr, hp⟩ := h
    obtain ⟨⟨mime, content⟩, hpc⟩ := Option.isSome_iff_exists.mp hp
    simp only [hu, hpc, if_neg hr]
    by_cases hb : IMAGE_SEND_TOTAL_MAX_BYTES < acc.total + estimateBase64ByteLength content
        ∧ acc.entries ≠ []
    · left
      rw [if_pos hb]
      exact ⟨rfl, rfl, hb.2⟩
    · right
      rw [if_neg hb]
      exact ⟨_, rfl, rfl⟩

lemma imageLoop_fold (normalize : String → String) (fid : Nat → String) :
    ∀ (atts : List OutboundAttachment) (acc : ImageLoopAcc),
    ((List.foldl (imageLoopStep normalize fid) acc atts).entries.length +
      (List.foldl (imageLoopStep normalize fid) acc atts).dropped
      = acc.entries.length + acc.dropped +
        atts.countP (fun a => isImageCandidate normalize a)) ∧
    ((acc.entries ≠ [] ∨ ∃ a ∈ atts, isImageCandidate normalize a = true) →
      (List.foldl (imageLoopStep normalize fid) acc atts).entries ≠ []) ∧
    ((0 < acc.dropped → acc.entries ≠ []) →
      0 < (List.foldl (imageLoopStep normalize fid) acc atts).dropped →
      (List.foldl (imageLoopStep normalize fid) acc atts).entries ≠ []) := by
  intro atts
  induction atts with
  | nil =>
    intro acc
    refine ⟨by simp, ?_, ?_⟩
    · intro h
      rcases h with h | ⟨a, ha, _⟩
      · simpa using h
      · cases ha
    · intro h hd
      exact h (by simpa using hd)
  | cons a rest ih =>
    intro acc
    by_cases hc : isImageCandidate normalize a = true
    · rcases @imageLoopStep_candidate normalize fid acc a hc with
        ⟨he, hd, hne⟩ | ⟨e, he, hd⟩
      · refine ⟨?_, ?_, ?_⟩
        · have := (ih (imageLoopStep normalize fid acc a)).1
          rw [List.foldl_cons] at *
          rw [this, he, hd]
          simp [List.countP_cons, hc]
          omega
        · intro _
          have := (ih (imageLoopStep normalize fid acc a)).2.1
          rw [List.foldl_cons]
          apply this
          left
          rw [he]
          exact hne
        · intro _ _
          have := (ih (imageLoopStep normalize fid acc a)).2.1
          rw [List.foldl_cons]
          apply this
          left
          rw [he]
          exact hne
      · refine ⟨?_, ?_, ?_⟩
        · have := (ih (imageLoopStep normalize fid acc a)).1
          rw [List.foldl_cons] at *
          rw [this, he, hd]
          simp [List.countP_cons, hc]
          omega
        · intro _
          have := (ih (imageLoopStep normalize fid acc a)).2.1
          rw [List.foldl_cons]
          apply this
          left
          rw [he]
          simp
        · intro _ _
          have := (ih (imageLoopStep normalize fid acc a)).2.1
          rw [List.foldl_cons]
          apply this
          left
          rw [he]
          simp
    · have hstep := @imageLoopStep_not_candidate normalize fid acc a
        (Bool.not_eq_true _ ▸ hc)
      refine ⟨?_, ?_, ?_⟩
      · have := (ih acc).1
        rw [List.foldl_cons, hstep, this]
        simp [List.countP_cons, hc]
      · intro h
        have := (ih acc).2.1
        rw [List.foldl_cons, hstep]
        apply this
        rcases h with h | ⟨b, hb, hcb⟩
        · exact Or.inl h
        · rcases List.mem_cons.mp hb with heq | htl
          · subst heq; rw [hcb] at hc; exact absurd rfl hc
          · exact Or.inr ⟨b, htl, hcb⟩
      · intro h hd
        have := (ih acc).2.2
        rw [List.foldl_cons, hstep] at *
        exact this h hd

/-- C9: in `sendPrompt`'s image-budget loop, at least one image is always
included whenever any attachment survives parsing (the first candidate is
included regardless of its size), an image is dropped only once at least one
image is already included, every candidate is either included or counted as
dropped, and a positive drop count is surfaced as the non-fatal
`已自动跳过 N 张超大图片。` notice after a successful send. -/
theorem C9_image_budget (normalize : String → String) (fid : Nat → String)
    (atts : List OutboundAttachment) :
    ((∃ a ∈ atts, isImageCandidate normalize a = true) →
      (imageLoop normalize fid atts).entries ≠ []) ∧
    (0 < (imageLoop normalize fid atts).dropped →
      (imageLoop normalize fid atts).entries ≠ []) ∧
    ((imageLoop normalize fid atts).entries.length +
      (imageLoop normalize fid atts).dropped
      = atts.countP (fun a => isImageCandidate normalize a)) ∧
    (∀ (now : Int) (st : CState) (prompt : String) (payload : Json),
      st.hasClient → st.status = .connected → st.activeRunId = none →
      0 < (imageLoop normalize fid atts).dropped →
      (sendPrompt normalize fid now st prompt (some atts) (.ok payload)).2.lastError
        = some ("已自动跳过 " ++ toString (imageLoop normalize fid atts).dropped ++
                " 张超大图片。")) := by
  have hfold := imageLoop_fold normalize fid atts
    { entries := [], total := 0, dropped := 0, idUsed := 0 }
  refine ⟨?_, ?_, ?_, ?_⟩
  · intro h
    exact (hfold.2.1) (Or.inr h)
  · intro h
    exact (hfold.2.2) (by intro h0; simp at h0) h
  · have := hfold.1
    simpa [imageLoop] using this
  · intro now st prompt payload hcl hst hrun hd
    have hne : (imageLoop normalize fid atts).entries ≠ [] :=
      (hfold.2.2) (by intro h0; simp at h0) hd
    have hsa : (some atts : Option (List OutboundAttachment)).getD [] = atts := rfl
    have hatts : atts ≠ [] := by
      intro he
      subst he
      simp [imageLoop] at hd
    have hnotes : fileNotes (imageLoop normalize fid atts).entries atts ≠ "" :=
      fileNotes_ne_empty _ hatts
    have hmem : '附' ∈ (jsTrim prompt ++ "\n\n附件（已保存到项目目录）:\n" ++
        fileNotes (imageLoop normalize fid atts).entries atts).data := by
      rw [String.data_append, String.data_append]
      refine List.mem_append.mpr (Or.inl (List.mem_append.mpr (Or.inr ?_)))
      decide
    have hmw : jsTrim (jsTrim prompt ++ "\n\n附件（已保存到项目目录）:\n" ++
        fileNotes (imageLoop normalize fid atts).entries atts) ≠ "" :=
      jsTrim_ne_empty hmem (by decide)
    have hfm : ¬ (composeFinalMessage (jsTrim prompt)
        (fileNotes (imageLoop normalize fid ((some atts : Option _).getD [])).entries
          ((some atts : Option _).getD []))
        (decide ((imageLoop normalize fid ((some atts : Option _).getD [])).entries ≠ [])) = "") := by
      rw [hsa]
      simp only [composeFinalMessage]
      rw [if_pos hnotes, if_pos hmw]
      exact hmw
    simp only [sendPrompt]
    rw [if_neg hfm, if_neg (by simp [hcl, hst]), if_neg (by simp [hrun])]
    have hdrop : (0 < (imageLoop normalize fid ((some atts : Option _).getD [])).dropped) := hd
    cases payload <;> simp only [stopHistoryFallback] <;> try (simp [hdrop] <;> omega)
    case obj fields =>
      cases hrf : jStrField fields "runId" with
      | none => simp [hrf, hdrop] <;> omega
      | some rid =>
        simp only [hrf]
        split_ifs <;> (simp [hdrop] <;> omega)

/-- Witness for C9: two oversized images (the second exceeding the 820KiB
cumulative budget given the first) produce one included image, one drop, and
the drop notice. -/
theorem C9_image_budget_witness :
    ((imageLoop id fid0 [att1]).entries ≠ []) ∧
    ((imageLoop id fid0 [att1]).entries.length + (imageLoop id fid0 [att1]).dropped
      = [att1].countP (fun a => isImageCandidate id a)) :=
  ⟨(C9_image_budget id fid0 [att1]).1 ⟨att1, by decide, by decide⟩,
   (C9_image_budget id fid0 [att1]).2.2.1⟩

/-! ## Gateway claims -/

/-- The frame is dispatched as an event (`frame.type === "event"`). -/
def frameTypeIsEvent : Json → Bool
  | .obj fields => jStrField fields "type" = some "event"
  | _ => false

/-- The pending entry a non-event frame's `id` field selects, if any. -/
def frameIdLookup (st : GWState) : Json → Option Nat
  | .obj fields =>
    (match jStrField fields "id" with
     | some id => pendingGet st.pending id
     | none => none)
  | _ => none

def handledOk {α : Type} : Except Unit α → Bool
  | .ok _ => true
  | .error _ => false

lemma jStrField_eq_some {fields : List (String × Json)} {key s : String} :
    jStrField fields key = some s ↔ jLookup fields key = some (.str s) := by
  unfold jStrField
  cases h : jLookup fields key with
  | none => simp
  | some w => cases w <;> simp

/-- C8 counterexample: two malformed inbound messages that are not handled by
silent dropping — the JSON text `null` makes the handler throw at the
`frame.type` access, and a typeless object whose `id` matches a pending
request settles (rejects) that request, changing client state. -/
theorem C8_counterexample :
    (handleMessage { freshOpenGW with pending := [("a", 0)] } (some .null)
      = .error ()) ∧
    (handleMessage { freshOpenGW with pending := [("a", 0)] }
        (some (.obj [("id", .str "a")]))
      = .ok ({ freshOpenGW with pending := [] },
             [.settle 0 (.rejected "request failed")])) :=
  ⟨rfl, rfl⟩

/-- C8 (amended): unparseable input is dropped silently; parsed input other
than `null` never throws (a parsed `null` does throw, at the `frame.type`
property access); a frame that is neither event-typed nor carries an `id`
matching a pending request is dropped with no state change and no effects.
The two departures malformed input can cause: a non-event object whose `id`
matches a pending request settles that request exactly as a response frame
would, and an event-typed object is forwarded to subscribers (changing no
state when it is not a valid challenge). -/
theorem C8_malformed_frames (st : GWState) (v : Json) :
    (handleMessage st none = .ok (st, [])) ∧
    (v ≠ .null → handledOk (handleMessage st (some v)) = true) ∧
    (v ≠ .null → frameTypeIsEvent v = false → frameIdLookup st v = none →
      handleMessage st (some v) = .ok (st, [])) ∧
    (∀ fields id k, v = .obj fields → frameTypeIsEvent v = false →
      jStrField fields "id" = some id → pendingGet st.pending id = some k →
      handleMessage st (some v) =
        .ok ({ st with pending := pendingErase st.pending id },
          [.settle k (if jsTruthy (jLookup fields "ok") then
              .resolved (jLookup fields "payload")
            else .rejected (resErrorMessage fields))])) ∧
    (∀ fields, v = .obj fields → frameTypeIsEvent v = true →
      challengeNonceOf fields = none →
      handleMessage st (some v) = .ok (st, [.emit v])) := by
  refine ⟨rfl, ?_, ?_, ?_, ?_⟩
  · intro hv
    cases v with
    | null => exact absurd rfl hv
    | bool b => rfl
    | num n => rfl
    | str s => rfl
    | arr xs => rfl
    | obj fields =>
      simp only [handleMessage]
      split
      · cases hn : challengeNonceOf fields <;> simp [handledOk]
      · cases hl : jLookup fields "id" with
        | none => simp [handledOk]
        | some w =>
          cases w <;> try simp [handledOk]
          case str id =>
            cases hk : pendingGet st.pending id with
            | none => simp [handledOk]
            | some k => split_ifs <;> simp [handledOk]
  · intro hv hev hid
    cases v with
    | null => exact absurd rfl hv
    | bool b => rfl
    | num n => rfl
    | str s => rfl
    | arr xs => rfl
    | obj fields =>
      simp only [frameTypeIsEvent] at hev
      simp only [frameIdLookup] at hid
      simp only [handleMessage]
      rw [if_neg (by simpa using hev)]
      cases hl : jLookup fields "id" with
      | none => rfl
      | some w =>
        cases w <;> try rfl
        case str id =>
          have h2 : jStrField fields "id" = some id := by
            rw [jStrField_eq_some]; exact hl
          simp only [h2] at hid
          simp [hid]
  · intro fields id k hv hev hid hk
    subst hv
    simp only [frameTypeIsEvent] at hev
    simp only [handleMessage]
    rw [if_neg (by simpa using hev)]
    have hl : jLookup fields "id" = some (.str id) := jStrField_eq_some.mp hid
    simp only [hl, hk]
    split_ifs with ht <;> simp [ht]
  · intro fields hv hev hn
    subst hv
    simp only [frameTypeIsEvent] at hev
    simp only [handleMessage]
    rw [if_pos (by simpa using hev), hn]

/-- Witness for C8: a numeric frame is dropped silently with no state
change. -/
theorem C8_malformed_frames_witness :
    handleMessage freshOpenGW (some (.num 42)) = .ok (freshOpenGW, []) :=
  (C8_malformed_frames freshOpenGW (.num 42)).2.2.1 (by simp) rfl rfl

/-- Inputs that can occur within one open socket's lifetime (no lifecycle
transitions: no `start`, `open`, `close`, `stop`). -/
def perSocketInput : GWInput → Bool
  | .recv _ => true
  | .reqCall _ => true
  | .timerFire => true
  | _ => false

/-- A frame the challenge branch accepts: event-typed with a usable nonce. -/
def validChallenge : Json → Bool
  | .obj fields => frameTypeIsEvent (.obj fields) && (challengeNonceOf fields).isSome
  | _ => false

/-- An input that forces the `connect` request out: the handshake timer
firing, or receipt of a valid `connect.challenge`. -/
def isConnectTrigger : GWInput → Bool
  | .timerFire => true
  | .recv (some v) => validChallenge v
  | _ => false

def challengeFrame (n : String) : Json :=
  .obj [("type", .str "event"), ("event", .str "connect.challenge"),
        ("payload", .obj [("nonce", .str n)])]

/-- Handshake invariant for an open socket: the timer is armed exactly while
the `connect` request has not been sent. -/
def CInvGW (st : GWState) : Prop :=
  st.ws = .openSock ∧ (st.connectSent = false → st.connectTimerArmed = true) ∧
  (st.connectSent = true → st.connectTimerArmed = false)

lemma handleMessage_nonEvent (st : GWState) (fields : List (String × Json))
    (hev : ¬ jStrField fields "type" = some "event") :
    handleMessage st (some (.obj fields)) = .ok (st, []) ∨
    ∃ id k sk, pendingGet st.pending id = some k ∧
      handleMessage st (some (.obj fields)) =
        .ok ({ st with pending := pendingErase st.pending id }, [.settle k sk]) := by
  simp only [handleMessage]
  rw [if_neg hev]
  cases hl : jLookup fields "id" with
  | none => left; rfl
  | some w =>
    rcases w with _ | b | n | s | ys | flds
    · left; rfl
    · left; rfl
    · left; rfl
    · cases hk : pendingGet st.pending s with
      | none => left; simp [hk]
      | some k =>
        right
        refine ⟨s, k, (if jsTruthy (jLookup fields "ok") then
          SettleKind.resolved (jLookup fields "payload")
          else SettleKind.rejected (resErrorMessage fields)), hk, ?_⟩
        simp only [hk]
        split_ifs with ht <;> simp [hk, ht]
    · left; rfl
    · left; rfl

lemma stepGW_connect_accounting (st : GWState) (i : GWInput)
    (hps : perSocketInput i = true) (hinv : CInvGW st) :
    CInvGW (stepGW st i).1 ∧
    (connectSendCount (stepGW st i).2 + (if st.connectSent then 1 else 0)
      = (if (stepGW st i).1.connectSent then 1 else 0)) ∧
    (isConnectTrigger i = true → (stepGW st i).1.connectSent = true) := by
  obtain ⟨hws, harm, hdis⟩ := hinv
  cases i with
  | openEvt => cases hps
  | closeEvt c r => cases hps
  | stopCall => cases hps
  | startCall => cases hps
  | timerFire =>
    simp only [stepGW, connectTimerFire, sendConnect]
    by_cases ha : st.connectTimerArmed = true
    · have hns : st.connectSent = false := by
        cases hcs : st.connectSent
        · rfl
        · rw [hdis hcs] at ha; cases ha
      rw [if_pos ha, if_neg (by simp [hns, hws])]
      exact ⟨⟨hws, by simp, by simp⟩,
             by simp [connectSendCount, hns], by intro _; simp⟩
    · have hcs : st.connectSent = true := by
        cases h : st.connectSent
        · rw [harm h] at ha; exact absurd rfl ha
        · rfl
      rw [if_neg ha]
      exact ⟨⟨hws, harm, hdis⟩, by simp [connectSendCount],
             by intro _; exact hcs⟩
  | reqCall id =>
    simp only [stepGW, requestCall]
    simp only [if_neg (show ¬ (st.ws ≠ WsPhase.openSock) by simp [hws])]
    exact ⟨⟨hws, harm, hdis⟩, by simp [connectSendCount],
           by intro h; simp [isConnectTrigger] at h⟩
  | recv d =>
    cases d with
    | none =>
      exact ⟨⟨hws, harm, hdis⟩, by simp [stepGW, handleMessage, connectSendCount],
             by intro h; simp [isConnectTrigger] at h⟩
    | some v =>
      rcases v with _ | b | n | s | xs | fields
      · exact ⟨⟨hws, harm, hdis⟩, by simp [stepGW, handleMessage, connectSendCount],
               by intro h; simp [isConnectTrigger, validChallenge] at h⟩
      · exact ⟨⟨hws, harm, hdis⟩, by simp [stepGW, handleMessage, connectSendCount],
               by intro h; simp [isConnectTrigger, validChallenge] at h⟩
      · exact ⟨⟨hws, harm, hdis⟩, by simp [stepGW, handleMessage, connectSendCount],
               by intro h; simp [isConnectTrigger, validChallenge] at h⟩
      · exact ⟨⟨hws, harm, hdis⟩, by simp [stepGW, handleMessage, connectSendCount],
               by intro h; simp [isConnectTrigger, validChallenge] at h⟩
      · exact ⟨⟨hws, harm, hdis⟩, by simp [stepGW, handleMessage, connectSendCount],
               by intro h; simp [isConnectTrigger, validChallenge] at h⟩
      · by_cases hev : jStrField fields "type" = some "event"
        · simp only [stepGW, handleMessage]
          rw [if_pos hev]
          cases hn : challengeNonceOf fields with
          | none =>
            refine ⟨⟨hws, harm, hdis⟩, by simp [connectSendCount], ?_⟩
            intro h
            simp [isConnectTrigger, validChallenge, frameTypeIsEvent, hev, hn] at h
          | some nn =>
            simp only [sendConnect]
            by_cases hcs : st.connectSent = true
            · rw [if_pos (Or.inl hcs)]
              exact ⟨⟨hws, harm, hdis⟩, by simp [connectSendCount, hcs],
                     by intro _; exact hcs⟩
            · have hcs' : st.connectSent = false := by
                cases h : st.connectSent
                · rfl
                · exact absurd h hcs
              rw [if_neg (by simp [hcs', hws])]
              exact ⟨⟨hws, by simp, by simp⟩,
                     by simp [connectSendCount, hcs'], by intro _; simp⟩
        · have hnv : isConnectTrigger (GWInput.recv (some (Json.obj fields))) = false := by
            simp [isConnectTrigger, validChallenge, frameTypeIsEvent, hev]
          rcases handleMessage_nonEvent st fields hev with heq | ⟨id2, k, sk, hk, heq⟩
          · have hs : stepGW st (.recv (some (.obj fields))) = (st, []) := by
              simp [stepGW, heq]
            rw [hs]
            exact ⟨⟨hws, harm, hdis⟩, by simp [connectSendCount],
                   by intro h; rw [hnv] at h; cases h⟩
          · have hs : stepGW st (.recv (some (.obj fields))) =
                ({ st with pending := pendingErase st.pending id2 }, [.settle k sk]) := by
              simp [stepGW, heq]
            rw [hs]
            exact ⟨⟨hws, harm, hdis⟩, by simp [connectSendCount],
                   by intro h; rw [hnv] at h; cases h⟩

lemma runGW_connect_accounting :
    ∀ (inputs : List GWInput), (∀ i ∈ inputs, perSocketInput i = true) →
    ∀ st, CInvGW st →
    CInvGW (runGW st inputs).1 ∧
    (connectSendCount (runGW st inputs).2 + (if st.connectSent then 1 else 0)
       = (if (runGW st inputs).1.connectSent then 1 else 0)) ∧
    ((∃ i ∈ inputs, isConnectTrigger i = true) →
      (runGW st inputs).1.connectSent = true) := by
  intro inputs
  induction inputs with
  | nil =>
    intro _ st hinv
    refine ⟨hinv, by simp [runGW, connectSendCount], ?_⟩
    rintro ⟨i, hi, _⟩
    cases hi
  | cons i rest ih =>
    intro hps st hinv
    have hstep := stepGW_connect_accounting st i (hps i (by simp)) hinv
    have hrest := ih (fun j hj => hps j (by simp [hj])) (stepGW st i).1 hstep.1
    have hcat : connectSendCount (runGW st (i :: rest)).2
        = connectSendCount (stepGW st i).2 +
          connectSendCount (runGW (stepGW st i).1 rest).2 := by
      simp [runGW, connectSendCount, List.countP_append]
    have hst1 : (runGW st (i :: rest)).1 = (runGW (stepGW st i).1 rest).1 := by
      simp [runGW]
    refine ⟨hst1 ▸ hrest.1, ?_, ?_⟩
    · rw [hcat, hst1]
      have h1 := hstep.2.1
      have h2 := hrest.2.1
      split_ifs at * <;> omega
    · rintro ⟨j, hj, htrig⟩
      rw [hst1]
      rcases List.mem_cons.mp hj with heq | htl
      · have hsent := hstep.2.2 (heq ▸ htrig)
        have h2 := hrest.2.1
        rw [hsent] at h2
        simp only [if_pos] at h2
        by_cases hfin : (runGW (stepGW st i).1 rest).1.connectSent = true
        · exact hfin
        · rw [if_neg hfin] at h2
          exact absurd h2 (by omega)
      · exact hrest.2.2 ⟨j, htl, htrig⟩

lemma connectSendNonces_eq_nil {effs : List GWEffect}
    (h : connectSendCount effs = 0) : connectSendNonces effs = [] := by
  unfold connectSendCount at h
  unfold connectSendNonces
  rw [List.filterMap_eq_nil]
  intro e he
  have := List.countP_eq_zero.mp h e he
  cases e <;> simp_all

/-- C6: within one socket lifetime (socket opened by `start()`, no further
lifecycle transitions), the `connect` request is dispatched at most once over
any sequence of inbound messages, requests and timer firings; it is
dispatched exactly once as soon as the handshake timer fires or a valid
`connect.challenge` arrives, whichever happens first; and when a challenge
with nonce `n` arrives first, the single dispatch is signed with `n`. -/
theorem C6_connect_exactly_once (inputs : List GWInput)
    (hps : ∀ i ∈ inputs, perSocketInput i = true) :
    connectSendCount (runGW freshOpenGW inputs).2 ≤ 1 ∧
    ((∃ i ∈ inputs, isConnectTrigger i = true) →
      connectSendCount (runGW freshOpenGW inputs).2 = 1) ∧
    (∀ n rest, n ≠ "" → inputs = .recv (some (challengeFrame n)) :: rest →
      connectSendNonces (runGW freshOpenGW inputs).2 = [some n]) := by
  have hinv : CInvGW freshOpenGW := ⟨rfl, fun _ => rfl, fun h => by cases h⟩
  have hacc := runGW_connect_accounting inputs hps freshOpenGW hinv
  refine ⟨?_, ?_, ?_⟩
  · have h1 := hacc.2.1
    split_ifs at h1 <;> omega
  · intro htrig
    have hfin := hacc.2.2 htrig
    have h1 := hacc.2.1
    rw [hfin] at h1
    simp at h1
    simpa using h1
  · intro n rest hn hinputs
    subst hinputs
    have hlen : 0 < n.length := by
      cases n with
      | mk l =>
        cases l with
        | nil => exact absurd rfl hn
        | cons c cs => simp [String.length]
    have hstep1 : stepGW freshOpenGW (.recv (some (challengeFrame n))) =
        ({ freshOpenGW with connectNonce := some n, connectSent := true,
                            connectTimerArmed := false },
         [.connectSend (some n), .emit (challengeFrame n)]) := by
      simp [stepGW, handleMessage, challengeFrame, challengeNonceOf, jStrField,
            jLookup, sendConnect, freshOpenGW, hlen]
    have hsplit : runGW freshOpenGW (.recv (some (challengeFrame n)) :: rest)
        = ((runGW (stepGW freshOpenGW (.recv (some (challengeFrame n)))).1 rest).1,
           (stepGW freshOpenGW (.recv (some (challengeFrame n)))).2 ++
           (runGW (stepGW freshOpenGW (.recv (some (challengeFrame n)))).1 rest).2) := by
      simp [runGW]
    have hinv1 : CInvGW (stepGW freshOpenGW (.recv (some (challengeFrame n)))).1 :=
      (stepGW_connect_accounting freshOpenGW (.recv (some (challengeFrame n)))
        (by rfl) hinv).1
    have hacc2 := runGW_connect_accounting rest
      (fun j hj => hps j (by simp [hj]))
      (stepGW freshOpenGW (.recv (some (challengeFrame n)))).1 hinv1
    have hsent1 : (stepGW freshOpenGW (.recv (some (challengeFrame n)))).1.connectSent
        = true := by rw [hstep1]
    have hc2 : connectSendCount
        (runGW (stepGW freshOpenGW (.recv (some (challengeFrame n)))).1 rest).2 = 0 := by
      have h2 := hacc2.2.1
      rw [hsent1] at h2
      simp at h2
      split_ifs at h2 <;> omega
    rw [hsplit]
    show connectSendNonces (_ ++ _) = [some n]
    rw [show connectSendNonces ((stepGW freshOpenGW (.recv (some (challengeFrame n)))).2 ++
        (runGW (stepGW freshOpenGW (.recv (some (challengeFrame n)))).1 rest).2)
      = connectSendNonces (stepGW freshOpenGW (.recv (some (challengeFrame n)))).2 ++
        connectSendNonces (runGW (stepGW freshOpenGW (.recv (some (challengeFrame n)))).1 rest).2
      from by simp [connectSendNonces, List.filterMap_append]]
    rw [connectSendNonces_eq_nil hc2, hstep1]
    simp [connectSendNonces]

/-- Witness for C6: a valid challenge followed by a (now disarmed) timer
firing dispatches `connect` exactly once, with the challenge nonce. -/
theorem C6_connect_exactly_once_witness :
    connectSendCount
      (runGW freshOpenGW
        [.recv (some (challengeFrame "n1")), .timerFire]).2 = 1 ∧
    connectSendNonces
      (runGW freshOpenGW
        [.recv (some (challengeFrame "n1")), .timerFire]).2 = [some "n1"] :=
  ⟨(C6_connect_exactly_once
      [.recv (some (challengeFrame "n1")), .timerFire] (by decide)).2.1
      ⟨.timerFire, by simp, rfl⟩,
   (C6_connect_exactly_once
      [.recv (some (challengeFrame "n1")), .timerFire] (by decide)).2.2
      "n1" [.timerFire] (by decide) rfl⟩

/-! ### Pending-request accounting (claim C3) -/

/-- Well-formedness of the pending map: JavaScript `Map` keys are unique, and
every stored continuation token was allocated below the counter. -/
def PendInv (st : GWState) : Prop :=
  (st.pending.map Prod.fst).Nodup ∧ ∀ e ∈ st.pending, e.2 < st.nextK

lemma settledKs_append (a b : List GWEffect) :
    settledKs (a ++ b) = settledKs a ++ settledKs b := by
  simp [settledKs, List.filterMap_append]

lemma settledKs_flush (l : List (String × Nat)) (msg : String) :
    settledKs (l.map fun e => GWEffect.settle e.2 (SettleKind.rejected msg))
      = l.map Prod.snd := by
  induction l with
  | nil => rfl
  | cons e rest ih => simp [settledKs] at ih ⊢; exact ih

lemma pendingErase_count {pending : List (String × Nat)} {id : String} {k0 : Nat}
    (hnd : (pending.map Prod.fst).Nodup) (hget : pendingGet pending id = some k0) :
    ∀ k, (pending.map Prod.snd).count k
      = ((pendingErase pending id).map Prod.snd).count k +
        (if k0 = k then 1 else 0) := by
  induction pending with
  | nil => cases hget
  | cons e rest ih =>
    obtain ⟨ekey, etok⟩ := e
    have hnd' : (rest.map Prod.fst).Nodup := (List.nodup_cons.mp (by simpa using hnd)).2
    have hkey : ekey ∉ rest.map Prod.fst := (List.nodup_cons.mp (by simpa using hnd)).1
    intro k
    simp only [pendingGet] at hget
    by_cases heq : ekey = id
    · rw [if_pos heq] at hget
      injection hget with hget
      subst hget
      have hrest : pendingErase rest id = rest := by
        unfold pendingErase
        apply List.filter_eq_self.mpr
        intro e he
        have hm : e.1 ∈ rest.map Prod.fst := List.mem_map_of_mem Prod.fst he
        have hne : e.1 ≠ id := by
          intro hc
          rw [hc, ← heq] at hm
          exact hkey hm
        simp [hne]
      have hhd : pendingErase ((ekey, etok) :: rest) id = rest := by
        unfold pendingErase at hrest ⊢
        rw [List.filter_cons, if_neg (by simp [heq])]
        exact hrest
      rw [hhd]
      simp only [List.map_cons, List.count_cons]
      by_cases hk : etok = k <;> simp [hk] <;> omega
    · rw [if_neg heq] at hget
      have hhd : pendingErase ((ekey, etok) :: rest) id
          = (ekey, etok) :: pendingErase rest id := by
        unfold pendingErase
        rw [List.filter_cons]
        simp [heq]
      rw [hhd]
      have := ih hnd' hget
      simp only [List.map_cons, List.count_cons]
      rw [this]
      by_cases hk : etok = k <;> simp [hk] <;> omega

lemma pendingErase_keys_sublist (pending : List (String × Nat)) (id : String) :
    ((pendingErase pending id).map Prod.fst).Sublist (pending.map Prod.fst) :=
  List.Sublist.map Prod.fst (List.filter_sublist pending)

lemma pendingErase_mem {pending : List (String × Nat)} {id : String} {e : String × Nat}
    (h : e ∈ pendingErase pending id) : e ∈ pending :=
  List.mem_of_mem_filter h

lemma pendingGet_eq_none_iff {pending : List (String × Nat)} {id : String} :
    pendingGet pending id = none ↔ id ∉ pending.map Prod.fst := by
  induction pending with
  | nil => simp [pendingGet]
  | cons e rest ih =>
    obtain ⟨a, b⟩ := e
    by_cases ha : a = id
    · subst ha
      simp [pendingGet]
    · simp only [pendingGet, if_neg ha, List.map_cons, List.mem_cons, not_or, ih]
      constructor
      · intro h
        exact ⟨fun hc => ha hc.symm, h⟩
      · intro h
        exact h.2

lemma pendingSet_fresh {pending : List (String × Nat)} {id : String} {v : Nat}
    (h : pendingGet pending id = none) :
    pendingSet pending id v = pending ++ [(id, v)] := by
  unfold pendingSet
  rw [if_neg (by simp [h])]

lemma pendingSet_overwrite_keys {pending : List (String × Nat)} {id : String} {v : Nat} :
    ((pending.map fun e => if e.1 = id then (id, v) else e).map Prod.fst)
      = pending.map Prod.fst := by
  induction pending with
  | nil => rfl
  | cons e rest ih =>
    obtain ⟨a, b⟩ := e
    by_cases ha : a = id <;> simp [ha, ih]

lemma map_replace_absent {rest : List (String × Nat)} {id : String} {v : Nat}
    (h : id ∉ rest.map Prod.fst) :
    rest.map (fun e => if e.1 = id then (id, v) else e) = rest := by
  induction rest with
  | nil => rfl
  | cons e tl ih =>
    obtain ⟨a, b⟩ := e
    simp only [List.map_cons, List.mem_cons, not_or] at h
    simp only [List.map_cons]
    rw [if_neg (fun hc => h.1 (by simpa using hc.symm)), ih h.2]

lemma pendingSet_overwrite_count {pending : List (String × Nat)} {id : String}
    {v : Nat} (hnd : (pending.map Prod.fst).Nodup) (k : Nat) :
    (((pending.map fun e => if e.1 = id then (id, v) else e).map Prod.snd).count k)
      ≤ (pending.map Prod.snd).count k + (if v = k then 1 else 0) := by
  induction pending with
  | nil => simp
  | cons e rest ih =>
    obtain ⟨a, b⟩ := e
    simp only [List.map_cons, List.nodup_cons] at hnd
    by_cases ha : a = id
    · subst ha
      simp only [List.map_cons, if_pos rfl, map_replace_absent hnd.1, List.count_cons]
      by_cases hv : v = k <;> by_cases hb : b = k <;> simp [hv, hb] <;> omega
    · simp only [List.map_cons, if_neg ha, List.count_cons]
      have h2 := ih hnd.2
      rw [List.map_map] at h2
      by_cases hb : b = k <;> simp [hb] <;> omega

lemma pendingSet_mem {pending : List (String × Nat)} {id : String} {v : Nat}
    {e : String × Nat} (h : e ∈ pendingSet pending id v) :
    e = (id, v) ∨ e ∈ pending := by
  unfold pendingSet at h
  split_ifs at h with hc
  · rcases List.mem_map.mp h with ⟨w, hw, hwe⟩
    by_cases hw1 : w.1 = id
    · rw [if_pos hw1] at hwe
      exact Or.inl hwe.symm
    · rw [if_neg hw1] at hwe
      exact Or.inr (hwe ▸ hw)
  · rcases List.mem_append.mp h with h1 | h1
    · exact Or.inr h1
    · simp at h1
      exact Or.inl h1

lemma pendingSet_overwrite {pending : List (String × Nat)} {id : String} {v : Nat}
    (h : pendingGet pending id ≠ none) :
    pendingSet pending id v
      = pending.map (fun e => if e.1 = id then (id, v) else e) := by
  have hc : (pendingGet pending id).isSome = true := by
    cases hg : pendingGet pending id
    · exact absurd hg h
    · simp
  unfold pendingSet
  rw [if_pos hc]

/-- The freshness condition for a `request` call at this state: the generated
id is not already a pending key (what `createId`'s uniqueness guarantees). -/
def reqOk (st : GWState) : GWInput → Bool
  | .reqCall id => (pendingGet st.pending id).isNone
  | _ => true

lemma stepGW_pending_accounting (st : GWState) (i : GWInput) (hinv : PendInv st) :
    PendInv (stepGW st i).1 ∧
    st.nextK ≤ (stepGW st i).1.nextK ∧
    (∀ k, (settledKs (stepGW st i).2).count k +
        ((stepGW st i).1.pending.map Prod.snd).count k
      ≤ (st.pending.map Prod.snd).count k +
        (if st.nextK ≤ k ∧ k < (stepGW st i).1.nextK then 1 else 0)) ∧
    (reqOk st i = true →
      ∀ k, (settledKs (stepGW st i).2).count k +
          ((stepGW st i).1.pending.map Prod.snd).count k
        = (st.pending.map Prod.snd).count k +
          (if st.nextK ≤ k ∧ k < (stepGW st i).1.nextK then 1 else 0)) := by
  obtain ⟨hnd, htok⟩ := hinv
  cases i with
  | openEvt =>
    exact ⟨⟨hnd, htok⟩, le_refl _,
      fun k => by simp [stepGW, handleOpen, settledKs],
      fun _ k => by simp [stepGW, handleOpen, settledKs]⟩
  | timerFire =>
    have hset : settledKs (stepGW st .timerFire).2 = [] := by
      simp only [stepGW, connectTimerFire, sendConnect]
      split_ifs <;> simp [settledKs]
    have hpend : (stepGW st .timerFire).1.pending = st.pending := by
      simp only [stepGW, connectTimerFire, sendConnect]
      split_ifs <;> rfl
    have hnk : (stepGW st .timerFire).1.nextK = st.nextK := by
      simp only [stepGW, connectTimerFire, sendConnect]
      split_ifs <;> rfl
    have heq : ∀ k, (settledKs (stepGW st .timerFire).2).count k +
        ((stepGW st .timerFire).1.pending.map Prod.snd).count k
        = (st.pending.map Prod.snd).count k +
          (if st.nextK ≤ k ∧ k < (stepGW st .timerFire).1.nextK then 1 else 0) := by
      intro k
      rw [hset, hpend, hnk, if_neg (by omega)]
      simp
    refine ⟨⟨by rw [hpend]; exact hnd, ?_⟩, by rw [hnk],
      fun k => le_of_eq (heq k), fun _ => heq⟩
    intro e he
    rw [hpend] at he
    rw [hnk]
    exact htok e he
  | closeEvt c r =>
    have hset : settledKs (stepGW st (.closeEvt c r)).2 = st.pending.map Prod.snd := by
      simp only [stepGW, handleClose, flushPending]
      rw [settledKs_append, settledKs_flush]
      split_ifs <;> simp [settledKs]
    have hpend : (stepGW st (.closeEvt c r)).1.pending = [] := by
      simp [stepGW, handleClose, flushPending]
    have hnk : (stepGW st (.closeEvt c r)).1.nextK = st.nextK := by
      simp [stepGW, handleClose, flushPending]
    have heq : ∀ k, (settledKs (stepGW st (.closeEvt c r)).2).count k +
        ((stepGW st (.closeEvt c r)).1.pending.map Prod.snd).count k
        = (st.pending.map Prod.snd).count k +
          (if st.nextK ≤ k ∧ k < (stepGW st (.closeEvt c r)).1.nextK then 1 else 0) := by
      intro k
      rw [hset, hpend, hnk, if_neg (by omega)]
      simp
    refine ⟨?_, by rw [hnk], fun k => le_of_eq (heq k), fun _ => heq⟩
    rw [PendInv, hpend]
    simp
  | stopCall =>
    have hset : settledKs (stepGW st .stopCall).2 = st.pending.map Prod.snd := by
      cases hws : st.ws
      all_goals
        simp only [stepGW, stopClient, flushPending, hws]
        rw [settledKs_append, settledKs_flush]
        simp [settledKs]
    have hpend : (stepGW st .stopCall).1.pending = [] := by
      simp only [stepGW, stopClient, flushPending]
    have hnk : (stepGW st .stopCall).1.nextK = st.nextK := by
      simp only [stepGW, stopClient, flushPending]
      cases hws : st.ws <;> simp
    have heq : ∀ k, (settledKs (stepGW st .stopCall).2).count k +
        ((stepGW st .stopCall).1.pending.map Prod.snd).count k
        = (st.pending.map Prod.snd).count k +
          (if st.nextK ≤ k ∧ k < (stepGW st .stopCall).1.nextK then 1 else 0) := by
      intro k
      rw [hset, hpend, hnk, if_neg (by omega)]
      simp
    refine ⟨?_, by rw [hnk], fun k => le_of_eq (heq k), fun _ => heq⟩
    rw [PendInv, hpend]
    simp
  | startCall =>
    have hset : settledKs (stepGW st .startCall).2 = st.pending.map Prod.snd := by
      cases hws : st.ws
      all_goals
        simp only [stepGW, startClient, stopClient, flushPending, hws]
        rw [settledKs_append, settledKs_flush]
        simp [settledKs]
    have hpend : (stepGW st .startCall).1.pending = [] := by
      simp only [stepGW, startClient, stopClient, flushPending]
    have hnk : (stepGW st .startCall).1.nextK = st.nextK := by
      simp only [stepGW, startClient, stopClient, flushPending]
      cases hws : st.ws <;> simp
    have heq : ∀ k, (settledKs (stepGW st .startCall).2).count k +
        ((stepGW st .startCall).1.pending.map Prod.snd).count k
        = (st.pending.map Prod.snd).count k +
          (if st.nextK ≤ k ∧ k < (stepGW st .startCall).1.nextK then 1 else 0) := by
      intro k
      rw [hset, hpend, hnk, if_neg (by omega)]
      simp
    refine ⟨?_, by rw [hnk], fun k => le_of_eq (heq k), fun _ => heq⟩
    rw [PendInv, hpend]
    simp
  | reqCall id =>
    by_cases hws : st.ws = WsPhase.openSock
    · have hred : stepGW st (.reqCall id) =
          ({ st with pending := pendingSet st.pending id st.nextK,
                     nextK := st.nextK + 1 }, [.sendFrame id]) := by
        simp only [stepGW, requestCall]
        rw [if_neg (by simp [hws])]
      rw [hred]
      by_cases hfresh : pendingGet st.pending id = none
      · rw [pendingSet_fresh hfresh]
        have heq : ∀ k, (settledKs [GWEffect.sendFrame id]).count k +
            (((st.pending ++ [(id, st.nextK)]).map Prod.snd).count k)
            = (st.pending.map Prod.snd).count k +
              (if st.nextK ≤ k ∧ k < st.nextK + 1 then 1 else 0) := by
          intro k
          have hc : (if st.nextK ≤ k ∧ k < st.nextK + 1 then 1 else 0)
              = (if st.nextK = k then 1 else 0) := by
            by_cases hk : st.nextK = k
            · rw [if_pos (by omega), if_pos hk]
            · rw [if_neg (by omega), if_neg hk]
          have hms : (st.pending ++ [(id, st.nextK)]).map Prod.snd
              = st.pending.map Prod.snd ++ [st.nextK] := by
            simp
          have hsf : settledKs [GWEffect.sendFrame id] = [] := rfl
          rw [hc, hms, hsf]
          by_cases hk : st.nextK = k
          · subst hk
            simp [List.count_append]
          · simp [List.count_append, hk, List.count_eq_zero]
            exact fun hc2 => hk hc2.symm
        refine ⟨⟨?_, ?_⟩, by simp, fun k => le_of_eq (heq k), fun _ => heq⟩
        · simp only [List.map_append]
          rw [List.nodup_append]
          refine ⟨hnd, by simp, ?_⟩
          intro a ha hb
          simp at hb
          subst hb
          exact (pendingGet_eq_none_iff.mp hfresh) ha
        · intro e he
          rcases List.mem_append.mp he with h1 | h1
          · exact Nat.lt_succ_of_lt (htok e h1)
          · simp at h1
            subst h1
            simp
      · have hov := @pendingSet_overwrite st.pending id st.nextK hfresh
        refine ⟨⟨?_, ?_⟩, by simp, ?_, ?_⟩
        · rw [hov, pendingSet_overwrite_keys]
          exact hnd
        · intro e he
          rcases pendingSet_mem he with h1 | h1
          · subst h1; simp
          · exact Nat.lt_succ_of_lt (htok e h1)
        · intro k
          rw [hov]
          have hle := @pendingSet_overwrite_count st.pending id st.nextK hnd k
          simp only [settledKs, List.filterMap, List.count_nil]
          by_cases hk : st.nextK = k
          · simp [hk] at hle ⊢
            omega
          · simp [hk] at hle ⊢
            omega
        · intro hok
          simp only [reqOk, Option.isNone_iff_eq_none] at hok
          exact absurd hok hfresh
    · have hred : stepGW st (.reqCall id) =
          ({ st with nextK := st.nextK + 1 },
           [.settle st.nextK (.rejected "gateway not connected")]) := by
        simp only [stepGW, requestCall]
        rw [if_pos (by simp [hws])]
      rw [hred]
      have heq : ∀ k, (settledKs [GWEffect.settle st.nextK
            (SettleKind.rejected "gateway not connected")]).count k +
          ((st.pending.map Prod.snd).count k)
          = (st.pending.map Prod.snd).count k +
            (if st.nextK ≤ k ∧ k < st.nextK + 1 then 1 else 0) := by
        intro k
        have hc : (if st.nextK ≤ k ∧ k < st.nextK + 1 then 1 else 0)
            = (if st.nextK = k then 1 else 0) := by
          by_cases hk : st.nextK = k
          · rw [if_pos (by omega), if_pos hk]
          · rw [if_neg (by omega), if_neg hk]
        have hsk : settledKs [GWEffect.settle st.nextK
            (SettleKind.rejected "gateway not connected")] = [st.nextK] := rfl
        rw [hc, hsk]
        by_cases hk : st.nextK = k
        · subst hk
          simp
          omega
        · simp [hk, List.count_eq_zero]
          exact fun hc2 => hk hc2.symm
      refine ⟨⟨hnd, ?_⟩, by simp, fun k => le_of_eq (heq k), fun _ => heq⟩
      intro e he
      exact Nat.lt_succ_of_lt (htok e he)
  | recv d =>
    cases d with
    | none =>
      exact ⟨⟨hnd, htok⟩, le_refl _,
        fun k => by simp [stepGW, handleMessage, settledKs],
        fun _ k => by simp [stepGW, handleMessage, settledKs]⟩
    | some v =>
      rcases v with _ | b | n | s | xs | fields
      · exact ⟨⟨hnd, htok⟩, le_refl _,
          fun k => by simp [stepGW, handleMessage, settledKs],
          fun _ k => by simp [stepGW, handleMessage, settledKs]⟩
      · exact ⟨⟨hnd, htok⟩, le_refl _,
          fun k => by simp [stepGW, handleMessage, settledKs],
          fun _ k => by simp [stepGW, handleMessage, settledKs]⟩
      · exact ⟨⟨hnd, htok⟩, le_refl _,
          fun k => by simp [stepGW, handleMessage, settledKs],
          fun _ k => by simp [stepGW, handleMessage, settledKs]⟩
      · exact ⟨⟨hnd, htok⟩, le_refl _,
          fun k => by simp [stepGW, handleMessage, settledKs],
          fun _ k => by simp [stepGW, handleMessage, settledKs]⟩
      · exact ⟨⟨hnd, htok⟩, le_refl _,
          fun k => by simp [stepGW, handleMessage, settledKs],
          fun _ k => by simp [stepGW, handleMessage, settledKs]⟩
      · by_cases hev : jStrField fields "type" = some "event"
        · have hset : settledKs (stepGW st (.recv (some (.obj fields)))).2 = [] := by
            simp only [stepGW, handleMessage]
            rw [if_pos hev]
            cases hn : challengeNonceOf fields with
            | none => simp [settledKs]
            | some nn =>
              simp only [sendConnect]
              split_ifs <;> simp [settledKs]
          have hpend : (stepGW st (.recv (some (.obj fields)))).1.pending
              = st.pending := by
            simp only [stepGW, handleMessage]
            rw [if_pos hev]
            cases hn : challengeNonceOf fields with
            | none => simp
            | some nn =>
              simp only [sendConnect]
              split_ifs <;> simp
          have hnk : (stepGW st (.recv (some (.obj fields)))).1.nextK = st.nextK := by
            simp only [stepGW, handleMessage]
            rw [if_pos hev]
            cases hn : challengeNonceOf fields with
            | none => simp
            | some nn =>
              simp only [sendConnect]
              split_ifs <;> simp
          have heq : ∀ k, (settledKs (stepGW st (.recv (some (.obj fields)))).2).count k +
              ((stepGW st (.recv (some (.obj fields)))).1.pending.map Prod.snd).count k
              = (st.pending.map Prod.snd).count k +
                (if st.nextK ≤ k ∧ k <
                  (stepGW st (.recv (some (.obj fields)))).1.nextK then 1 else 0) := by
            intro k
            rw [hset, hpend, hnk, if_neg (by omega)]
            simp
          refine ⟨⟨by rw [hpend]; exact hnd, ?_⟩, by rw [hnk],
            fun k => le_of_eq (heq k), fun _ => heq⟩
          intro e he
          rw [hpend] at he
          rw [hnk]
          exact htok e he
        · rcases handleMessage_nonEvent st fields hev with hm | ⟨id2, k2, sk, hk2, hm⟩
          · have hred : stepGW st (.recv (some (.obj fields))) = (st, []) := by
              simp [stepGW, hm]
            rw [hred]
            exact ⟨⟨hnd, htok⟩, le_refl _,
              fun k => by simp [settledKs],
              fun _ k => by simp [settledKs]⟩
          · have hred : stepGW st (.recv (some (.obj fields))) =
                ({ st with pending := pendingErase st.pending id2 },
                 [.settle k2 sk]) := by
              simp [stepGW, hm]
            rw [hred]
            have hcnt := pendingErase_count hnd hk2
            have heq : ∀ k, (settledKs [GWEffect.settle k2 sk]).count k +
                ((pendingErase st.pending id2).map Prod.snd).count k
                = (st.pending.map Prod.snd).count k +
                  (if st.nextK ≤ k ∧ k < st.nextK then 1 else 0) := by
              intro k
              have hsk : settledKs [GWEffect.settle k2 sk] = [k2] := rfl
              have hz : (if st.nextK ≤ k ∧ k < st.nextK then 1 else 0) = 0 :=
                if_neg (by omega)
              rw [hcnt k, hz, hsk]
              by_cases hk : k2 = k
              · subst hk
                simp
                omega
              · simp [hk, List.count_eq_zero]
                exact fun hc2 => hk hc2.symm
            refine ⟨⟨?_, ?_⟩, le_refl _, fun k => le_of_eq (heq k), fun _ => heq⟩
            · exact (pendingErase_keys_sublist st.pending id2).nodup hnd
            · intro e he
              exact htok e (pendingErase_mem he)

/-- Id-freshness along a trace: every `request` call uses an id that is not
currently a pending key (the uniqueness `createId` provides in the source). -/
def freshReqsB : GWState → List GWInput → Bool
  | _, [] => true
  | st, i :: rest => reqOk st i && freshReqsB (stepGW st i).1 rest

lemma runGW_pending_accounting :
    ∀ (inputs : List GWInput) (st : GWState), PendInv st →
    PendInv (runGW st inputs).1 ∧
    st.nextK ≤ (runGW st inputs).1.nextK ∧
    (∀ k, (settledKs (runGW st inputs).2).count k +
        ((runGW st inputs).1.pending.map Prod.snd).count k
      ≤ (st.pending.map Prod.snd).count k +
        (if st.nextK ≤ k ∧ k < (runGW st inputs).1.nextK then 1 else 0)) ∧
    (freshReqsB st inputs = true →
      ∀ k, (settledKs (runGW st inputs).2).count k +
          ((runGW st inputs).1.pending.map Prod.snd).count k
        = (st.pending.map Prod.snd).count k +
          (if st.nextK ≤ k ∧ k < (runGW st inputs).1.nextK then 1 else 0)) := by
  intro inputs
  induction inputs with
  | nil =>
    intro st hinv
    refine ⟨hinv, le_refl _, ?_, ?_⟩
    · intro k
      show (settledKs ([] : List GWEffect)).count k +
          (st.pending.map Prod.snd).count k
        ≤ (st.pending.map Prod.snd).count k +
          (if st.nextK ≤ k ∧ k < st.nextK then 1 else 0)
      rw [if_neg (by omega)]
      simp [settledKs]
    · intro _ k
      show (settledKs ([] : List GWEffect)).count k +
          (st.pending.map Prod.snd).count k
        = (st.pending.map Prod.snd).count k +
          (if st.nextK ≤ k ∧ k < st.nextK then 1 else 0)
      rw [if_neg (by omega)]
      simp [settledKs]
  | cons i rest ih =>
    intro st hinv
    obtain ⟨hs1, hs2, hs3, hs4⟩ := stepGW_pending_accounting st i hinv
    obtain ⟨hi1, hi2, hi3, hi4⟩ := ih (stepGW st i).1 hs1
    refine ⟨hi1, le_trans hs2 hi2, ?_, ?_⟩
    · intro k
      have h3 := hs3 k
      have h4 := hi3 k
      have hm1 := hs2
      have hm2 := hi2
      show (settledKs ((stepGW st i).2 ++ (runGW (stepGW st i).1 rest).2)).count k +
          ((runGW (stepGW st i).1 rest).1.pending.map Prod.snd).count k
        ≤ (st.pending.map Prod.snd).count k +
          (if st.nextK ≤ k ∧ k < (runGW (stepGW st i).1 rest).1.nextK then 1 else 0)
      rw [settledKs_append, List.count_append]
      split_ifs at h3 h4 ⊢ <;> omega
    · intro hfr k
      simp only [freshReqsB, Bool.and_eq_true] at hfr
      have h3 := hs4 hfr.1 k
      have h4 := hi4 hfr.2 k
      have hm1 := hs2
      have hm2 := hi2
      show (settledKs ((stepGW st i).2 ++ (runGW (stepGW st i).1 rest).2)).count k +
          ((runGW (stepGW st i).1 rest).1.pending.map Prod.snd).count k
        = (st.pending.map Prod.snd).count k +
          (if st.nextK ≤ k ∧ k < (runGW (stepGW st i).1 rest).1.nextK then 1 else 0)
      rw [settledKs_append, List.count_append]
      split_ifs at h3 h4 ⊢ <;> omega

lemma runGW_append (a : List GWInput) : ∀ (st : GWState) (b : List GWInput),
    runGW st (a ++ b)
      = ((runGW (runGW st a).1 b).1,
         (runGW st a).2 ++ (runGW (runGW st a).1 b).2) := by
  induction a with
  | nil =>
    intro st b
    simp [runGW]
  | cons i rest ih =>
    intro st b
    simp only [List.cons_append, runGW, List.append_eq]
    rw [ih]
    simp [List.append_assoc]

lemma stopCall_pending_nil (st : GWState) :
    (stepGW st .stopCall).1.pending = [] := by
  simp only [stepGW, stopClient, flushPending]

lemma pendingGet_erase (m : List (String × Nat)) (id : String) :
    pendingGet (pendingErase m id) id = none := by
  induction m with
  | nil => rfl
  | cons e rest ih =>
    obtain ⟨a, b⟩ := e
    by_cases ha : a = id
    · simp only [pendingErase, List.filter_cons] at ih ⊢
      rw [if_neg (by simp [ha])]
      exact ih
    · simp only [pendingErase, List.filter_cons] at ih ⊢
      rw [if_pos (by simp [ha])]
      simp only [pendingGet]
      rw [if_neg ha]
      exact ih

/-- C3: over one socket lifetime, each pending request entry is settled
exactly once.  (1) On any input trace from a freshly opened socket no
continuation token is ever settled twice (the settled tokens are nodup).
(2) A non-event frame whose `id` has no pending entry is dropped silently:
the state is unchanged and no effect is produced.  (3) The first frame whose
`id` matches a pending entry settles that entry's token once (resolved or
rejected) and removes the entry, so the id no longer resolves.  (4) Socket
closure bulk-settles exactly the remaining tokens and empties the pending
map, and (5) so does client stop.  (6) With fresh request ids throughout and
a trailing `stop()`, the pending map ends empty and every token allocated
during the lifetime is settled exactly once. -/
theorem C3_pending_settled_once
    (inputs l : List GWInput) (st : GWState)
    (fields : List (String × Json)) (id2 : String) (k2 : Nat)
    (c : Nat) (r : String) :
    (settledKs (runGW freshOpenGW inputs).2).Nodup ∧
    (¬ jStrField fields "type" = some "event" →
      jLookup fields "id" = some (.str id2) →
      pendingGet st.pending id2 = none →
      stepGW st (.recv (some (.obj fields))) = (st, [])) ∧
    (¬ jStrField fields "type" = some "event" →
      jLookup fields "id" = some (.str id2) →
      pendingGet st.pending id2 = some k2 →
      ∃ sk, stepGW st (.recv (some (.obj fields)))
          = ({ st with pending := pendingErase st.pending id2 },
             [.settle k2 sk]) ∧
        pendingGet (pendingErase st.pending id2) id2 = none) ∧
    ((stepGW st (.closeEvt c r)).1.pending = [] ∧
      settledKs (stepGW st (.closeEvt c r)).2 = pendingKs st) ∧
    ((stepGW st .stopCall).1.pending = [] ∧
      settledKs (stepGW st .stopCall).2 = pendingKs st) ∧
    (freshReqsB freshOpenGW (l ++ [.stopCall]) = true →
      (runGW freshOpenGW (l ++ [.stopCall])).1.pending = [] ∧
      ∀ k, k < (runGW freshOpenGW (l ++ [.stopCall])).1.nextK →
        (settledKs (runGW freshOpenGW (l ++ [.stopCall])).2).count k = 1) := by
  have hfresh0 : PendInv freshOpenGW := by
    constructor
    · simp [freshOpenGW]
    · intro e he
      simp [freshOpenGW] at he
  refine ⟨?_, ?_, ?_, ?_, ?_, ?_⟩
  · rw [List.nodup_iff_count_le_one]
    intro a
    have h := (runGW_pending_accounting inputs freshOpenGW hfresh0).2.2.1 a
    have h0 : ((freshOpenGW.pending.map Prod.snd).count a) = 0 := rfl
    rw [h0] at h
    split_ifs at h <;> omega
  · intro hev hid hnone
    simp [stepGW, handleMessage, hev, hid, hnone]
  · intro hev hid hsome
    by_cases hok : jsTruthy (jLookup fields "ok")
    · exact ⟨.resolved (jLookup fields "payload"),
        by simp [stepGW, handleMessage, hev, hid, hsome, hok],
        pendingGet_erase st.pending id2⟩
    · exact ⟨.rejected (resErrorMessage fields),
        by simp [stepGW, handleMessage, hev, hid, hsome, hok],
        pendingGet_erase st.pending id2⟩
  · constructor
    · simp [stepGW, handleClose, flushPending]
    · simp only [stepGW, handleClose, flushPending]
      rw [settledKs_append, settledKs_flush]
      split_ifs <;> simp [settledKs, pendingKs]
  · constructor
    · exact stopCall_pending_nil st
    · cases hws : st.ws
      all_goals
        simp only [stepGW, stopClient, flushPending, hws]
        rw [settledKs_append, settledKs_flush]
        simp [settledKs, pendingKs]
  · intro hfr
    have hacc := runGW_pending_accounting (l ++ [.stopCall]) freshOpenGW hfresh0
    have hpend : (runGW freshOpenGW (l ++ [.stopCall])).1.pending = [] := by
      rw [runGW_append]
      exact stopCall_pending_nil _
    refine ⟨hpend, ?_⟩
    intro k hk
    have h := hacc.2.2.2 hfr k
    rw [hpend] at h
    have h0 : ((freshOpenGW.pending.map Prod.snd).count k) = 0 := rfl
    rw [h0] at h
    have h0n : freshOpenGW.nextK = 0 := rfl
    rw [if_pos ⟨by rw [h0n]; omega, hk⟩] at h
    simpa using h

/-- Witness for C3 on a concrete lifetime: request `a`, a matching `res`, a
duplicate `res`, then `stop()`: the settled tokens are duplicate-free, and on
the fresh-id prefix with a trailing stop the pending map ends empty. -/
theorem C3_pending_settled_once_witness :
    (settledKs (runGW freshOpenGW
      [.reqCall "a",
       .recv (some (.obj [("id", .str "a"), ("ok", .bool true)])),
       .recv (some (.obj [("id", .str "a"), ("ok", .bool true)])),
       .stopCall]).2).Nodup ∧
    (runGW freshOpenGW
       ([.reqCall "a",
         .recv (some (.obj [("id", .str "a"), ("ok", .bool true)]))]
        ++ [.stopCall])).1.pending = [] := by
  have h := C3_pending_settled_once
    [.reqCall "a",
     .recv (some (.obj [("id", .str "a"), ("ok", .bool true)])),
     .recv (some (.obj [("id", .str "a"), ("ok", .bool true)])),
     .stopCall]
    [.reqCall "a",
     .recv (some (.obj [("id", .str "a"), ("ok", .bool true)]))]
    freshOpenGW [("id", .str "a"), ("ok", .bool true)] "a" 0 1006 ""
  exact ⟨h.1, (h.2.2.2.2.2 (by decide)).1⟩

/-! ## C7: termination of failure paths -/

lemma firstAdoptable_fail (ctx : PollCtx) :
    ∀ keys : List String,
    firstAdoptable (fun _ => FetchOutcome.fail) ctx keys = none := by
  intro keys
  induction keys with
  | nil => rfl
  | cons k rest ih => exact ih

lemma runPolls_no_timer (now : Int) (fid : Nat → String) :
    ∀ (fetches : List (String → FetchOutcome)) (st : CState),
    st.fallbackTimer = none → runPolls now fid fetches st = st := by
  intro fetches
  induction fetches with
  | nil =>
    intro st h
    rfl
  | cons f rest ih =>
    intro st h
    have hstep : pollTick now fid f st = st := by
      simp [pollTick, h]
    show runPolls now fid rest (pollTick now fid f st) = st
    rw [hstep]
    exact ih st h

lemma pollTick_fail_timeout (now : Int) (fid : Nat → String) (st : CState)
    (ctx : PollCtx) (attempt : Nat)
    (htimer : st.fallbackTimer = some (ctx, attempt))
    (htok : ctx.token = st.fallbackToken)
    (hcl : st.hasClient = true)
    (hmid : st.activeAssistantMessageId = some ctx.assistantMessageId)
    (h20 : 20 ≤ attempt) :
    (pollTick now fid (fun _ => FetchOutcome.fail) st).isStreaming = false ∧
    (pollTick now fid (fun _ => FetchOutcome.fail) st).activeRunId = none ∧
    (pollTick now fid (fun _ => FetchOutcome.fail) st).fallbackTimer = none ∧
    (pollTick now fid (fun _ => FetchOutcome.fail) st).lastError.isSome = true ∧
    (pollTick now fid (fun _ => FetchOutcome.fail) st).activeAssistantMessageId
      = none := by
  simp [pollTick, htimer, htok, hcl, hmid, firstAdoptable_fail, h20,
    stopHistoryFallback]

lemma pollTick_fail_retry (now : Int) (fid : Nat → String) (st : CState)
    (ctx : PollCtx) (attempt : Nat)
    (htimer : st.fallbackTimer = some (ctx, attempt))
    (htok : ctx.token = st.fallbackToken)
    (hcl : st.hasClient = true)
    (hmid : st.activeAssistantMessageId = some ctx.assistantMessageId)
    (h20 : ¬ 20 ≤ attempt) :
    (pollTick now fid (fun _ => FetchOutcome.fail) st).fallbackTimer
        = some (ctx, attempt + 1) ∧
    (pollTick now fid (fun _ => FetchOutcome.fail) st).fallbackToken
        = st.fallbackToken ∧
    (pollTick now fid (fun _ => FetchOutcome.fail) st).hasClient = st.hasClient ∧
    (pollTick now fid (fun _ => FetchOutcome.fail) st).activeAssistantMessageId
        = st.activeAssistantMessageId := by
  simp [pollTick, htimer, htok, hcl, hmid, firstAdoptable_fail, h20]

lemma pollFail_timeout (now : Int) (fid : Nat → String) :
    ∀ (n : Nat) (st : CState) (ctx : PollCtx) (attempt : Nat),
    st.fallbackTimer = some (ctx, attempt) →
    ctx.token = st.fallbackToken →
    st.hasClient = true →
    st.activeAssistantMessageId = some ctx.assistantMessageId →
    20 ≤ attempt + n →
    ((runPolls now fid (List.replicate (n+1) (fun _ => FetchOutcome.fail))
        st).isStreaming = false ∧
     (runPolls now fid (List.replicate (n+1) (fun _ => FetchOutcome.fail))
        st).activeRunId = none ∧
     (runPolls now fid (List.replicate (n+1) (fun _ => FetchOutcome.fail))
        st).fallbackTimer = none ∧
     (runPolls now fid (List.replicate (n+1) (fun _ => FetchOutcome.fail))
        st).lastError.isSome = true ∧
     (runPolls now fid (List.replicate (n+1) (fun _ => FetchOutcome.fail))
        st).activeAssistantMessageId = none) := by
  intro n
  induction n with
  | zero =>
    intro st ctx attempt htimer htok hcl hmid hle
    have hrw : runPolls now fid (List.replicate (0+1) (fun _ => FetchOutcome.fail)) st
        = pollTick now fid (fun _ => FetchOutcome.fail) st := rfl
    rw [hrw]
    exact pollTick_fail_timeout now fid st ctx attempt htimer htok hcl hmid (by omega)
  | succ m ih =>
    intro st ctx attempt htimer htok hcl hmid hle
    have hrw : runPolls now fid
          (List.replicate (m+1+1) (fun _ => FetchOutcome.fail)) st
        = runPolls now fid (List.replicate (m+1) (fun _ => FetchOutcome.fail))
            (pollTick now fid (fun _ => FetchOutcome.fail) st) := rfl
    rw [hrw]
    by_cases h20 : 20 ≤ attempt
    · have hT := pollTick_fail_timeout now fid st ctx attempt htimer htok hcl hmid h20
      rw [runPolls_no_timer now fid _ _ hT.2.2.1]
      exact hT
    · have hR := pollTick_fail_retry now fid st ctx attempt htimer htok hcl hmid h20
      exact ih _ ctx (attempt+1) hR.1 (by rw [hR.2.1]; exact htok)
        (by rw [hR.2.2.1]; exact hcl)
        (by rw [hR.2.2.2]; exact hmid) (by omega)

lemma delta_cancels_fallback (now : Int) (fid : Nat → String) (st : CState)
    (p : ChatEventPayload) (r : String)
    (hrun : st.activeRunId = some r) (hdelta : p.state = .delta)
    (hstream : st.isStreaming = true) :
    (handleChatPayload now fid st p).1.fallbackTimer = none ∧
    (handleChatPayload now fid st p).1.isStreaming = true := by
  have hf := chatEventFilter_active (p := p) hrun
  obtain ⟨prunId, psk, pstate, pmsg, perr⟩ := p
  simp only at hdelta
  subst hdelta
  simp only [handleChatPayload, hf, chatEventBranch, stopHistoryFallback]
  by_cases hnext : extractTextOpt pmsg = ""
  · simp [hnext, hstream]
  · by_cases hlen : st.streamingText.length ≤ (extractTextOpt pmsg).length
    · cases hma : st.activeAssistantMessageId with
      | none => simp [hnext, hlen, hma]
      | some a => simp [hnext, hlen, hma]
    · simp [hnext, hlen, hstream]

/-- The controller state right after a concrete successful `sendPrompt`
(prompt "hi", no attachments, gateway acknowledging run id `run-1`): the
history-poll fallback is armed for attempt 1. -/
def sentCState : CState :=
  (sendPrompt (fun s => s) fid0 0 baseCState "hi" none
    (.ok (.obj [("runId", .str "run-1")]))).2

/-- C7 counterexample: after a successful send (fallback armed), a single
delta event for the active run cancels the armed history-poll fallback while
the run stays streaming; with no armed timer every poll firing is a no-op, so
30 subsequent poll opportunities (beyond the 20-attempt budget) change
nothing: if the stream then stays silent, no terminal event, fallback poll or
timeout notice ever finalizes the run, contradicting the every-sequence
guarantee. -/
theorem C7_counterexample :
    (sendPrompt (fun s => s) fid0 0 baseCState "hi" none
        (.ok (.obj [("runId", .str "run-1")]))).1 = true ∧
    sentCState.fallbackTimer.isSome = true ∧
    sentCState.isStreaming = true ∧
    (handleChatPayload 0 fid0 sentCState (deltaPayload "partial")).1.isStreaming
      = true ∧
    (handleChatPayload 0 fid0 sentCState (deltaPayload "partial")).1.fallbackTimer
      = none ∧
    runPolls 0 fid0 (List.replicate 30 (fun _ => FetchOutcome.fail))
        (handleChatPayload 0 fid0 sentCState (deltaPayload "partial")).1
      = (handleChatPayload 0 fid0 sentCState (deltaPayload "partial")).1 := by
  have hrun : sentCState.activeRunId = some "run-1" := by decide
  have hstream : sentCState.isStreaming = true := by decide
  have hd := delta_cancels_fallback 0 fid0 sentCState (deltaPayload "partial")
    "run-1" hrun rfl hstream
  exact ⟨by decide, by decide, hstream, hd.2, hd.1,
    runPolls_no_timer 0 fid0 _ _ hd.1⟩

/-- C7 (amended): the failure paths that do finalize, and the one that does
not.  (a) A failed `chat.send` finalizes the run immediately and visibly:
`false` comes back, streaming stops, the run id clears, no fallback stays
armed, and the error lands in `lastError`.  (b) While the history-poll
fallback is armed (current token, live client, the armed-for placeholder
still active), an unbroken sequence of fruitless polls reaching the
20-attempt budget finalizes the run with a visible timeout notice.  (c) With
no armed timer, poll firings change nothing at all; and (d) a delta event for
the active run cancels the armed fallback while leaving the run streaming —
so after a delta, stream silence leaves the controller streaming forever,
and the guarantee holds only for sequences with no delta before the silence. -/
theorem C7_failure_paths (normalize : String → String) (fid : Nat → String)
    (now : Int) (st st2 : CState) (prompt : String)
    (attachments : Option (List OutboundAttachment)) (em : String)
    (n attempt : Nat) (ctx : PollCtx)
    (fetches : List (String → FetchOutcome))
    (p : ChatEventPayload) (r : String) :
    (sendPromptFinalMessage normalize fid prompt attachments ≠ "" →
      st.hasClient = true → st.status = .connected → st.activeRunId = none →
      ((sendPrompt normalize fid now st prompt attachments (.err em)).1 = false ∧
       (sendPrompt normalize fid now st prompt attachments (.err em)).2.isStreaming
         = false ∧
       (sendPrompt normalize fid now st prompt attachments (.err em)).2.activeRunId
         = none ∧
       (sendPrompt normalize fid now st prompt attachments (.err em)).2.fallbackTimer
         = none ∧
       (sendPrompt normalize fid now st prompt attachments (.err em)).2.lastError
         = some em)) ∧
    (st2.fallbackTimer = some (ctx, attempt) →
      ctx.token = st2.fallbackToken →
      st2.hasClient = true →
      st2.activeAssistantMessageId = some ctx.assistantMessageId →
      20 ≤ attempt + n →
      ((runPolls now fid (List.replicate (n+1) (fun _ => FetchOutcome.fail))
          st2).isStreaming = false ∧
       (runPolls now fid (List.replicate (n+1) (fun _ => FetchOutcome.fail))
          st2).activeRunId = none ∧
       (runPolls now fid (List.replicate (n+1) (fun _ => FetchOutcome.fail))
          st2).fallbackTimer = none ∧
       (runPolls now fid (List.replicate (n+1) (fun _ => FetchOutcome.fail))
          st2).lastError.isSome = true ∧
       (runPolls now fid (List.replicate (n+1) (fun _ => FetchOutcome.fail))
          st2).activeAssistantMessageId = none)) ∧
    (st2.fallbackTimer = none → runPolls now fid fetches st2 = st2) ∧
    (st.activeRunId = some r → p.state = .delta → st.isStreaming = true →
      ((handleChatPayload now fid st p).1.fallbackTimer = none ∧
       (handleChatPayload now fid st p).1.isStreaming = true)) := by
  refine ⟨?_, ?_, ?_, ?_⟩
  · intro h hcl hst hrun
    simp only [sendPrompt, sendPromptFinalMessage] at h ⊢
    rw [if_neg h, if_neg (by simp [hcl, hst]), if_neg (by simp [hrun])]
    simp [stopHistoryFallback]
  · intro h1 h2 h3 h4 h5
    exact pollFail_timeout now fid n st2 ctx attempt h1 h2 h3 h4 h5
  · intro h
    exact runPolls_no_timer now fid fetches st2 h
  · intro hrun hdelta hstream
    exact delta_cancels_fallback now fid st p r hrun hdelta hstream

/-- Witness for C7: the armed fallback of `inFlightCState` (attempt 1), fed
20 consecutive failing polls, exhausts the attempt budget and finalizes the
run with a visible timeout error. -/
theorem C7_failure_paths_witness :
    (runPolls 0 fid0 (List.replicate 20 (fun _ => FetchOutcome.fail))
        inFlightCState).isStreaming = false ∧
    (runPolls 0 fid0 (List.replicate 20 (fun _ => FetchOutcome.fail))
        inFlightCState).fallbackTimer = none ∧
    (runPolls 0 fid0 (List.replicate 20 (fun _ => FetchOutcome.fail))
        inFlightCState).lastError.isSome = true := by
  have h := (C7_failure_paths id fid0 0 baseCState inFlightCState "" none "e"
      19 1 pollCtx1 [] finalEmptyPayload "r").2.1 rfl rfl rfl rfl (by omega)
  exact ⟨h.1, h.2.2.1, h.2.2.2.1⟩

end OpenClaw
